import Mathlib

/-!
Verification of the coverage data store (`coverage/sqldata.py`) and the
context-switcher combiner (`coverage/context.py`).

The development shallowly embeds the Python code: the SQLite database is a
record of tables, handle state (connection, in-memory flags, caches) is a
record threaded explicitly, and fallible operations return `Except`.
Byte strings are `List Nat`, line numbers are `Nat`, arc endpoints are `Int`.

The numbits codec lives in `coverage/numbits.py`, which is not part of the
provided sources; it is modelled from the specification (section 4.1).
-/

namespace Coverage

/-! ## Numbits codec

Modelled from the spec: a numbits value is a byte string representing a set
of non-negative integers as a little-endian bitmap; bit `k` of byte `i` is
set iff `8*i + k` is a member; trailing zero bytes are not emitted. -/

/-- Membership test on a numbits byte string: bit `n % 8` of byte `n / 8`. -/
def nbGet : List Nat → Nat → Bool
  | [], _ => false
  | b :: bs, n => if n < 8 then b.testBit n else nbGet bs (n - 8)

theorem nbGet_cons (b : Nat) (bs : List Nat) (n : Nat) :
    nbGet (b :: bs) n = if n < 8 then b.testBit n else nbGet bs (n - 8) := rfl

/-- Remove trailing zero bytes from a byte string. -/
def trimZeros : List Nat → List Nat
  | [] => []
  | b :: bs =>
    match trimZeros bs with
    | [] => if b = 0 then [] else [b]
    | x :: xs => b :: x :: xs

/-- Byte-wise OR of two byte strings, the shorter one padded with zeros. -/
def orBytes : List Nat → List Nat → List Nat
  | [], ys => ys
  | x :: xs, [] => x :: xs
  | x :: xs, y :: ys => (x ||| y) :: orBytes xs ys

/-- Modelled from the spec: `numbits_union` is the byte-wise OR with zero
padding, trailing zero bytes truncated (`coverage/numbits.py` is not in the
sources). -/
def numbits_union (a b : List Nat) : List Nat :=
  trimZeros (orBytes a b)

/-- Little-endian value of a list of bits (head is bit 0). -/
def bitsToNat : List Bool → Nat
  | [] => 0
  | b :: bs => Nat.bit b (bitsToNat bs)

/-- Byte `i` of the bitmap of the set `nums`. -/
def byteFor (nums : List Nat) (i : Nat) : Nat :=
  bitsToNat ((List.range 8).map (fun k => decide (8 * i + k ∈ nums)))

/-- Maximum of a list of naturals (0 for the empty list). -/
def listMax (nums : List Nat) : Nat :=
  nums.foldl Nat.max 0

/-- Modelled from the spec: `nums_to_numbits` allocates
`ceil ((max nums + 1) / 8)` bytes, sets the bit of every member, and
truncates trailing zero bytes (`coverage/numbits.py` is not in the
sources). -/
def nums_to_numbits (nums : List Nat) : List Nat :=
  trimZeros ((List.range ((listMax nums + 8) / 8)).map (byteFor nums))

/-- Modelled from the spec: `numbits_to_nums` yields every set bit's
position (`coverage/numbits.py` is not in the sources). -/
def numbits_to_nums (b : List Nat) : List Nat :=
  (List.range (8 * b.length)).filter (fun n => nbGet b n)

theorem nbGet_of_trimZeros_nil {bs : List Nat} (h : trimZeros bs = []) :
    ∀ n, nbGet bs n = false := by
  induction bs with
  | nil => intro n; rfl
  | cons b bs ih =>
    intro n
    rcases hbs : trimZeros bs with - | ⟨x, xs⟩
    · simp only [trimZeros, hbs] at h
      by_cases hb : b = 0
      · subst hb
        rw [nbGet_cons]
        split
        · exact Nat.zero_testBit _
        · exact ih hbs _
      · simp [hb] at h
    · simp only [trimZeros, hbs] at h
      exact absurd h (List.cons_ne_nil _ _)

theorem nbGet_trimZeros (bs : List Nat) (n : Nat) :
    nbGet (trimZeros bs) n = nbGet bs n := by
  induction bs generalizing n with
  | nil => rfl
  | cons b bs ih =>
    rcases hbs : trimZeros bs with - | ⟨x, xs⟩
    · have ht : trimZeros (b :: bs) = if b = 0 then [] else [b] := by
        simp only [trimZeros, hbs]
      rw [ht, nbGet_cons b bs n]
      by_cases hb : b = 0
      · rw [if_pos hb]
        subst hb
        split
        · exact (Nat.zero_testBit _).symm
        · exact (nbGet_of_trimZeros_nil hbs _).symm
      · rw [if_neg hb, nbGet_cons]
        split
        · rfl
        · exact (nbGet_of_trimZeros_nil hbs _).symm
    · have ht : trimZeros (b :: bs) = b :: x :: xs := by
        simp only [trimZeros, hbs]
      rw [ht, nbGet_cons b (x :: xs) n, nbGet_cons b bs n]
      split
      · rfl
      · rw [← hbs]
        exact ih _

theorem nbGet_orBytes (a : List Nat) (b : List Nat) (n : Nat) :
    nbGet (orBytes a b) n = (nbGet a n || nbGet b n) := by
  induction a generalizing b n with
  | nil => simp [orBytes, nbGet]
  | cons x xs ih =>
    cases b with
    | nil => simp [orBytes, nbGet]
    | cons y ys =>
      by_cases hn : n < 8
      · simp only [orBytes, nbGet_cons, if_pos hn, Nat.testBit_lor]
      · simp only [orBytes, nbGet_cons, if_neg hn]
        exact ih ys (n - 8)

theorem nbGet_numbits_union (a b : List Nat) (n : Nat) :
    nbGet (numbits_union a b) n = (nbGet a n || nbGet b n) := by
  rw [numbits_union, nbGet_trimZeros, nbGet_orBytes]

theorem testBit_bitsToNat (bs : List Bool) (k : Nat) :
    (bitsToNat bs).testBit k = bs.getD k false := by
  induction bs generalizing k with
  | nil => simp [bitsToNat, Nat.zero_testBit]
  | cons b bs ih =>
    cases k with
    | zero =>
      rw [List.getD_cons_zero]
      exact Nat.testBit_bit_zero b (bitsToNat bs)
    | succ k =>
      rw [List.getD_cons_succ, ← ih k]
      exact Nat.testBit_bit_succ k b (bitsToNat bs)

theorem testBit_byteFor (nums : List Nat) (i k : Nat) (hk : k < 8) :
    (byteFor nums i).testBit k = decide (8 * i + k ∈ nums) := by
  rw [byteFor, testBit_bitsToNat]
  rw [List.getD_eq_getElem?_getD, List.getElem?_map, List.getElem?_range hk]
  rfl

theorem nbGet_eq_getD (bs : List Nat) (n : Nat) :
    nbGet bs n = (bs.getD (n / 8) 0).testBit (n % 8) := by
  induction bs generalizing n with
  | nil => simp [nbGet, Nat.zero_testBit]
  | cons b bs ih =>
    rw [nbGet_cons]
    split
    · rename_i h
      rw [Nat.div_eq_of_lt h, Nat.mod_eq_of_lt h, List.getD_cons_zero]
    · rename_i h
      rw [ih]
      have hdiv : n / 8 = (n - 8) / 8 + 1 := by omega
      have hmod : n % 8 = (n - 8) % 8 := by omega
      rw [hdiv, hmod, List.getD_cons_succ]

theorem le_foldl_max (l : List Nat) (b : Nat) : b ≤ l.foldl Nat.max b := by
  induction l generalizing b with
  | nil => exact Nat.le_refl b
  | cons x xs ih => exact le_trans (Nat.le_max_left b x) (ih (Nat.max b x))

theorem mem_le_foldl_max {l : List Nat} {n : Nat} (h : n ∈ l) :
    ∀ b, n ≤ l.foldl Nat.max b := by
  induction l with
  | nil => cases h
  | cons x xs ih =>
    intro b
    rcases List.mem_cons.mp h with h | h
    · subst h
      rw [List.foldl_cons]
      exact le_trans (Nat.le_max_right b n) (le_foldl_max xs _)
    · rw [List.foldl_cons]
      exact ih h _

theorem mem_le_listMax {nums : List Nat} {n : Nat} (h : n ∈ nums) :
    n ≤ listMax nums :=
  mem_le_foldl_max h 0

theorem nbGet_nums_to_numbits (nums : List Nat) (n : Nat) :
    nbGet (nums_to_numbits nums) n = decide (n ∈ nums) := by
  rw [nums_to_numbits, nbGet_trimZeros, nbGet_eq_getD]
  rw [List.getD_eq_getElem?_getD, List.getElem?_map]
  by_cases h : n / 8 < (listMax nums + 8) / 8
  · rw [List.getElem?_range h, Option.map_some', Option.getD_some]
    rw [testBit_byteFor nums _ _ (Nat.mod_lt n (by omega))]
    have hn : 8 * (n / 8) + n % 8 = n := by omega
    rw [hn]
  · have hlen : (List.range ((listMax nums + 8) / 8)).length ≤ n / 8 := by
      rw [List.length_range]
      omega
    rw [List.getElem?_eq_none hlen, Option.map_none', Option.getD_none,
      Nat.zero_testBit]
    symm
    simp only [decide_eq_false_iff_not]
    intro hmem
    exact absurd (mem_le_listMax hmem) (by omega)

theorem nbGet_lt_of_true {bs : List Nat} {n : Nat} (h : nbGet bs n = true) :
    n < 8 * bs.length := by
  induction bs generalizing n with
  | nil => simp [nbGet] at h
  | cons b bs ih =>
    rw [nbGet_cons] at h
    split at h
    · simp only [List.length_cons]
      omega
    · have := ih h
      simp only [List.length_cons]
      omega

theorem mem_numbits_to_nums {b : List Nat} {n : Nat} :
    n ∈ numbits_to_nums b ↔ nbGet b n = true := by
  rw [numbits_to_nums, List.mem_filter]
  constructor
  · rintro ⟨-, h⟩
    simpa using h
  · intro h
    exact ⟨List.mem_range.mpr (nbGet_lt_of_true h), by simpa using h⟩

/-- Spec section 4.1, first property: decode after encode gives the set back. -/
theorem mem_decode_encode (nums : List Nat) (n : Nat) :
    n ∈ numbits_to_nums (nums_to_numbits nums) ↔ n ∈ nums := by
  rw [mem_numbits_to_nums, nbGet_nums_to_numbits]
  simp

/-- Spec section 4.1, second property: decoding a union of encodings gives
the union of the sets. -/
theorem mem_decode_union (a b : List Nat) (n : Nat) :
    n ∈ numbits_to_nums (numbits_union (nums_to_numbits a) (nums_to_numbits b)) ↔
      n ∈ a ∨ n ∈ b := by
  rw [mem_numbits_to_nums, nbGet_numbits_union, nbGet_nums_to_numbits,
    nbGet_nums_to_numbits]
  simp

/-! ## The SQL REGEXP predicate

The source registers `_regexp(text, pattern) = re.search(text, pattern) is
not None`. Python's `re.search` takes the regular expression as its FIRST
argument, so `_regexp` searches for `text` (as a regex) inside `pattern`.
`re` is the Python standard library, external to the repository; we model
`re.search` restricted to metacharacter-free patterns, where a search match
is an occurrence of the pattern as a contiguous substring. -/

/-- Modelled from the Python standard library contract of `re.search`
restricted to metacharacter-free patterns: `strSearch pat s` is true iff
`pat` occurs as a contiguous substring of `s`. The first argument is the
regular expression. -/
def strSearch : List Char → List Char → Bool
  | pat, [] => pat.isEmpty
  | pat, c :: rest => pat.isPrefixOf (c :: rest) || strSearch pat rest

/-- Embedding of `_regexp` from `coverage/sqldata.py`: the result of
`re.search(text, pattern) is not None`, with the arguments passed to
`re.search` in exactly the source's order. -/
def regexpFn (text pattern : List Char) : Bool :=
  strSearch text pattern

theorem strSearch_iff (pat s : List Char) :
    strSearch pat s = true ↔ ∃ pre post, s = pre ++ (pat ++ post) := by
  induction s with
  | nil =>
    simp only [strSearch, List.isEmpty_iff]
    constructor
    · intro h
      exact ⟨[], [], by simp [h]⟩
    · rintro ⟨pre, post, h⟩
      rcases List.append_eq_nil.mp h.symm with ⟨h1, h2⟩
      exact (List.append_eq_nil.mp h2).1
  | cons c rest ih =>
    simp only [strSearch, Bool.or_eq_true, List.isPrefixOf_iff_prefix, ih]
    constructor
    · rintro (⟨t, ht⟩ | ⟨pre, post, h⟩)
      · exact ⟨[], t, by simp [← ht]⟩
      · exact ⟨c :: pre, post, by simp [h]⟩
    · rintro ⟨pre, post, h⟩
      cases pre with
      | nil =>
        left
        exact ⟨post, by simpa using h.symm⟩
      | cons p ps =>
        right
        rw [List.cons_append, List.cons.injEq] at h
        exact ⟨ps, post, h.2⟩

/-- C4 (counterexample): with `text = "ab"` and `pattern = "a"`, the
pattern `"a"` has a search match in the text `"ab"`, yet the registered
REGEXP predicate returns false, because the source hands `text` to
`re.search` in the position of the regular expression. -/
theorem C4_regexp_counterexample :
    ¬ (regexpFn ['a', 'b'] ['a'] = true ↔
        ∃ pre post, ['a', 'b'] = pre ++ (['a'] ++ post)) := by
  intro h
  have h2 : regexpFn ['a', 'b'] ['a'] = true := h.mpr ⟨[], ['b'], rfl⟩
  exact absurd h2 (by decide)

/-- C4 (amended): for every pair of (metacharacter-free) strings, the SQL
REGEXP predicate registered by the store returns true iff `text` — its
first argument, which the source passes to `re.search` in the pattern
position — has a search match somewhere in `pattern`, the second
argument. -/
theorem C4_regexp_amended (text pattern : List Char) :
    regexpFn text pattern = true ↔ ∃ pre post, pattern = pre ++ (text ++ post) :=
  strSearch_iff text pattern

/-! ## Context switchers (`coverage/context.py`) -/

/-- Loop body of the combined switcher built by
`combine_context_switchers`: call the switchers one by one until one
returns a string; return `none` if all return `none`. -/
def should_start_context {F : Type} (switchers : List (F → Option String))
    (frame : F) : Option String :=
  match switchers with
  | [] => none
  | s :: rest =>
    match s frame with
    | some newContext => some newContext
    | none => should_start_context rest frame

/-- Embedding of `combine_context_switchers` from `coverage/context.py`. -/
def combine_context_switchers {F : Type}
    (context_switchers : List (F → Option String)) : Option (F → Option String) :=
  match context_switchers with
  | [] => none
  | [s] => some s
  | switchers => some (fun frame => should_start_context switchers frame)

theorem should_start_context_eq_findSome {F : Type}
    (switchers : List (F → Option String)) (frame : F) :
    should_start_context switchers frame =
      switchers.findSome? (fun s => s frame) := by
  induction switchers with
  | nil => rfl
  | cons s rest ih =>
    rw [List.findSome?_cons]
    simp only [should_start_context]
    cases s frame <;> simp [ih]

theorem should_start_context_eq_none {F : Type}
    (switchers : List (F → Option String)) (frame : F) :
    should_start_context switchers frame = none ↔
      ∀ s ∈ switchers, s frame = none := by
  induction switchers with
  | nil => simp [should_start_context]
  | cons s rest ih =>
    simp only [should_start_context]
    cases hs : s frame with
    | none => simp [hs, ih]
    | some ctx => simp [hs]

/-- C10: `combine_context_switchers` returns `none` for an empty list and
the single switcher itself for a one-element list; otherwise the returned
combined switcher yields, for every frame, the result of the first
switcher in list order whose result is not `none`, and it yields `none`
iff every switcher returns `none` for that frame. -/
theorem C10_combine_context_switchers {F : Type}
    (switchers : List (F → Option String)) :
    (combine_context_switchers switchers = none ↔ switchers = []) ∧
    (∀ s, switchers = [s] → combine_context_switchers switchers = some s) ∧
    (∀ f, combine_context_switchers switchers = some f → ∀ frame,
      f frame = switchers.findSome? (fun s => s frame) ∧
      (f frame = none ↔ ∀ s ∈ switchers, s frame = none)) := by
  match switchers with
  | [] =>
    refine ⟨by simp [combine_context_switchers], ?_, ?_⟩
    · intro s h
      exact absurd h (by simp)
    · intro f h
      exact absurd h (by simp [combine_context_switchers])
  | [s] =>
    refine ⟨by simp [combine_context_switchers], ?_, ?_⟩
    · intro s' h
      rw [List.cons.injEq] at h
      rw [combine_context_switchers, h.1]
    · intro f h
      rw [combine_context_switchers, Option.some.injEq] at h
      subst h
      intro frame
      constructor
      · rw [List.findSome?_cons]
        cases s frame <;> simp
      · cases hs : s frame <;> simp [hs]
  | s :: t :: rest =>
    refine ⟨by simp [combine_context_switchers], ?_, ?_⟩
    · intro s' h
      rw [List.cons.injEq] at h
      exact absurd h.2 (by simp)
    · intro f h
      have hc : combine_context_switchers (s :: t :: rest) =
          some (fun frame => should_start_context (s :: t :: rest) frame) := rfl
      rw [hc, Option.some.injEq] at h
      subst h
      intro frame
      exact ⟨should_start_context_eq_findSome _ frame,
        should_start_context_eq_none _ frame⟩

/-- First test switcher for the C10 witness. -/
def sw1 : Nat → Option String :=
  fun n => if n = 0 then some "a" else none

/-- Second test switcher for the C10 witness. -/
def sw2 : Nat → Option String :=
  fun _ => some "b"

/-- Witness for C10 at the concrete two-switcher list `[sw1, sw2]`. -/
theorem C10_combine_context_switchers_witness :
    should_start_context [sw1, sw2] 1 = [sw1, sw2].findSome? (fun s => s 1) :=
  ((C10_combine_context_switchers [sw1, sw2]).2.2
    (fun frame => should_start_context [sw1, sw2] frame) rfl 1).1

/-! ## Error model

The source raises `CoverageException(msg)` everywhere; the spec (section 7)
classifies the conditions into kinds and allows refining the single
exception into variants.  We carry the kind next to the message. -/

inductive ErrKind
  | malformed
  | schemaMismatch
  | mixedMode
  | emptyMode
  | unknownFile
  | tracerConflict
  | badBlob
  | backend
deriving DecidableEq, Repr

structure CovErr where
  kind : ErrKind
  msg : String
deriving DecidableEq, Repr

/-- Kind of the error of a failed computation, `none` on success. -/
def errKind {α : Type} : Except CovErr α → Option ErrKind
  | Except.error e => some e.kind
  | Except.ok _ => none

/-! ## Database state

One record per SQLite table of the schema.  Row ids are modelled by
monotone counters (`next_file_id`, `next_context_id`), as SQLite assigns
fresh rowids to inserted rows.  The `meta` table is modelled by its only
row the code ever consults, `has_arcs`; the `coverage_schema` table by the
optional version row. -/

def SCHEMA_VERSION : Nat := 7

structure DbState where
  schema_version : Option Nat
  has_arcs_meta : Option Bool
  file : List (Nat × String)
  next_file_id : Nat
  context : List (Nat × String)
  next_context_id : Nat
  line_bits : List (Nat × Nat × List Nat)
  arc : List (Nat × Nat × Int × Int)
  tracer : List (Nat × String)
deriving DecidableEq, Repr

/-- The database created by `_create_db`: fresh schema, version row
inserted, no measurement rows, no `has_arcs` meta row. -/
def createDb : DbState :=
  { schema_version := some SCHEMA_VERSION
    has_arcs_meta := none
    file := []
    next_file_id := 1
    context := []
    next_context_id := 1
    line_bits := []
    arc := []
    tracer := [] }

/-! ## Handle state

The fields of a `CoverageData` object: the data file on disk (`none` when
the file does not exist), whether this thread holds a connection, and the
in-memory caches and flags.  A single thread and a single process are
modelled, so the per-thread connection dictionary collapses to a boolean
and the fork check of `_start_using` is the identity. -/

structure CovData where
  filename : String
  disk : Option DbState
  connected : Bool
  file_map : List (String × Nat)
  have_used : Bool
  has_lines : Bool
  has_arcs : Bool
  current_context : Option String
  current_context_id : Option Nat
  query_context_ids : Option (List Nat)
deriving DecidableEq, Repr

/-- A newly constructed handle over a given on-disk file state. -/
def newHandle (filename : String) (disk : Option DbState) : CovData :=
  { filename := filename
    disk := disk
    connected := false
    file_map := []
    have_used := false
    has_lines := false
    has_arcs := false
    current_context := none
    current_context_id := none
    query_context_ids := none }

/-- A fresh handle whose data file does not exist yet. -/
def initCov : CovData :=
  newHandle ".coverage" none

/-- Associative-list lookup, first match (used for unique-keyed tables). -/
def assocGet {α β : Type} [DecidableEq α] : List (α × β) → α → Option β
  | [], _ => none
  | r :: rest, key => if key = r.1 then some r.2 else assocGet rest key

/-- Python-dict insertion: overwrite in place if the key is present,
else append. -/
def assocSet {α β : Type} [DecidableEq α] : List (α × β) → α → β → List (α × β)
  | [], k, v => [(k, v)]
  | r :: rest, k, v =>
    if k = r.1 then (k, v) :: rest else r :: assocSet rest k v

/-- Lookup of a context id by name (`select id from context where
context = ?`). -/
def ctxIdLookup : List (Nat × String) → String → Option Nat
  | [], _ => none
  | r :: rest, name => if r.2 = name then some r.1 else ctxIdLookup rest name

/-- Python-set insertion. -/
def setAdd {α : Type} [DecidableEq α] (acc : List α) (x : α) : List α :=
  if x ∈ acc then acc else acc ++ [x]

/-- The distinct elements of a list, in first-occurrence order (SQL
`select distinct` / a Python set built by iteration). -/
def listDistinct {α : Type} [DecidableEq α] (l : List α) : List α :=
  l.foldl setAdd []

/-- Database of a connected handle.  Every caller connects first, so the
fallback to a fresh database is never taken on the states the theorems
speak about. -/
def getDb (st : CovData) : DbState :=
  st.disk.getD createDb

/-- SQL `insert or replace into file (path) values (?)`: drop any row with
the same path, append a row with a fresh id; returns the new row id
(`cur.lastrowid`). -/
def fileInsertOrReplace (db : DbState) (path : String) : DbState × Nat :=
  ({ db with
      file := (db.file.filter (fun r => !(r.2 == path))) ++ [(db.next_file_id, path)]
      next_file_id := db.next_file_id + 1 }, db.next_file_id)

/-- SQL `insert or ignore into file (path) values (?)`. -/
def fileInsertIgnore (db : DbState) (path : String) : DbState :=
  if db.file.any (fun r => r.2 == path) then db
  else
    { db with
      file := db.file ++ [(db.next_file_id, path)]
      next_file_id := db.next_file_id + 1 }

/-- SQL `insert into context (context) values (?)`; returns
`cur.lastrowid`. -/
def contextInsert (db : DbState) (name : String) : DbState × Nat :=
  ({ db with
      context := db.context ++ [(db.next_context_id, name)]
      next_context_id := db.next_context_id + 1 }, db.next_context_id)

/-- SQL `insert or ignore into context (context) values (?)`. -/
def contextInsertIgnore (db : DbState) (name : String) : DbState :=
  if db.context.any (fun r => r.2 == name) then db
  else
    { db with
      context := db.context ++ [(db.next_context_id, name)]
      next_context_id := db.next_context_id + 1 }

/-! ## CoverageData methods -/

/-- Embedding of `CoverageData._reset`: close connections, clear the file
map, forget that the file was used. -/
def _reset (st : CovData) : CovData :=
  { st with
    connected := false
    file_map := []
    have_used := false
    current_context_id := none }

/-- Embedding of `CoverageData._create_db`: connect and install a fresh
schema with the compiled-in version row. -/
def _create_db (st : CovData) : CovData :=
  { st with connected := true, disk := some createDb }

/-- Embedding of `CoverageData._read_db`: check the schema version row,
then load `has_arcs` from meta and the file map from the file table. -/
def _read_db (st : CovData) : Except CovErr CovData :=
  match st.disk with
  | none =>
    Except.error ⟨ErrKind.backend,
      "Couldn't use data file '" ++ st.filename ++ "': no database"⟩
  | some db =>
    match db.schema_version with
    | none =>
      Except.error ⟨ErrKind.malformed,
        "Data file '" ++ st.filename ++
          "' doesn't seem to be a coverage data file: couldn't read schema version"⟩
    | some v =>
      if v ≠ SCHEMA_VERSION then
        Except.error ⟨ErrKind.schemaMismatch,
          "Couldn't use data file '" ++ st.filename ++ "': wrong schema: " ++
            toString v ++ " instead of " ++ toString SCHEMA_VERSION⟩
      else
        let st :=
          match db.has_arcs_meta with
          | some b => { st with has_arcs := b, has_lines := !b }
          | none => st
        Except.ok
          { st with
            file_map := db.file.foldl (fun m r => assocSet m r.2 r.1) st.file_map }

/-- Embedding of `CoverageData._open_db`: open a connection to the
existing file and read its metadata. -/
def _open_db (st : CovData) : Except CovErr CovData :=
  _read_db { st with connected := true }

/-- Embedding of `CoverageData._connect`: on first use on this thread,
open the file if it exists, else create it. -/
def _connect (st : CovData) : Except CovErr CovData :=
  if st.connected then Except.ok st
  else
    match st.disk with
    | some _ => _open_db st
    | none => Except.ok (_create_db st)

/-- Embedding of `CoverageData.erase` with `parallel=False`: reset the
handle and delete the data file. -/
def erase (st : CovData) : CovData :=
  { _reset st with disk := none }

/-- Embedding of `CoverageData.read`: connect and mark the handle as in
sync with the data file. -/
def read (st : CovData) : Except CovErr CovData := do
  let st ← _connect st
  Except.ok { st with have_used := true }

/-- Embedding of `CoverageData._start_using` for a single process: erase
the data file on the first use of the handle. -/
def _start_using (st : CovData) : CovData :=
  let st := if st.have_used then st else erase st
  { st with have_used := true }

/-- Embedding of `CoverageData.set_context`. -/
def set_context (st : CovData) (context : String) : CovData :=
  { st with current_context := some context, current_context_id := none }

/-- Embedding of `CoverageData._context_id`: look up the id of a context
name, `none` if absent. -/
def _context_id (st : CovData) (context : String) :
    Except CovErr (CovData × Option Nat) := do
  let st := _start_using st
  let st ← _connect st
  Except.ok (st, ctxIdLookup (getDb st).context context)

/-- Embedding of `CoverageData._set_context_id`: resolve the pending
context (empty string if unset) to an id, creating the row if needed. -/
def _set_context_id (st : CovData) : Except CovErr CovData := do
  let context := st.current_context.getD ""
  let p ← _context_id st context
  match p.2 with
  | some cid => Except.ok { p.1 with current_context_id := some cid }
  | none => do
    let st ← _connect p.1
    let db := getDb st
    let q := contextInsert db context
    Except.ok { st with disk := some q.1, current_context_id := some q.2 }

/-- Embedding of `CoverageData._file_id`: id of a measured file from the
in-memory map; with `add`, insert the file row and cache the new id. -/
def _file_id (st : CovData) (filename : String) (add : Bool) :
    Except CovErr (CovData × Option Nat) :=
  match assocGet st.file_map filename with
  | some fid => Except.ok (st, some fid)
  | none =>
    if add then do
      let st ← _connect st
      let db := getDb st
      let q := fileInsertOrReplace db filename
      Except.ok
        ({ st with
            disk := some q.1
            file_map := assocSet st.file_map filename q.2 }, some q.2)
    else Except.ok (st, none)

/-- Embedding of `CoverageData._choose_lines_or_arcs`: raise mixed-mode on
a conflict; on the first write set the flags and insert the `has_arcs`
meta row (a plain insert, which fails if the unique key is present). -/
def _choose_lines_or_arcs (st : CovData) (lines : Bool) (arcs : Bool) :
    Except CovErr CovData :=
  if lines && st.has_arcs then
    Except.error ⟨ErrKind.mixedMode,
      "Can't add line measurements to existing branch data"⟩
  else if arcs && st.has_lines then
    Except.error ⟨ErrKind.mixedMode,
      "Can't add branch measurements to existing line data"⟩
  else if !st.has_arcs && !st.has_lines then do
    let st := { st with has_lines := lines, has_arcs := arcs }
    let st ← _connect st
    let db := getDb st
    match db.has_arcs_meta with
    | some _ =>
      Except.error ⟨ErrKind.backend,
        "Couldn't use data file '" ++ st.filename ++
          "': UNIQUE constraint failed: meta.key"⟩
    | none =>
      Except.ok { st with disk := some { db with has_arcs_meta := some arcs } }
  else Except.ok st

/-- Per-file body of the `add_lines` loop: encode the new line set, union
it with the existing `line_bits` row for `(file_id, context_id)` if any,
and write back by insert-or-replace. -/
def _add_lines_body (st : CovData) (entry : String × List Nat) :
    Except CovErr CovData := do
  let linemap := nums_to_numbits entry.2
  let p ← _file_id st entry.1 true
  let st := p.1
  let fid := p.2.getD 0
  let cid := st.current_context_id.getD 0
  let db := getDb st
  let existing :=
    (db.line_bits.filter (fun r => r.1 == fid && r.2.1 == cid)).map (fun r => r.2.2)
  let linemap :=
    match existing with
    | [] => linemap
    | e :: _ => numbits_union linemap e
  let db :=
    { db with
      line_bits :=
        (db.line_bits.filter (fun r => !(r.1 == fid && r.2.1 == cid))) ++
          [(fid, cid, linemap)] }
  Except.ok { st with disk := some db }

/-- Embedding of `CoverageData.add_lines`. -/
def add_lines (st : CovData) (line_data : List (String × List Nat)) :
    Except CovErr CovData := do
  let st := _start_using st
  let st ← _choose_lines_or_arcs st true false
  if line_data.isEmpty then Except.ok st
  else do
    let st ← _connect st
    let st ← _set_context_id st
    line_data.foldlM _add_lines_body st

/-- Per-file body of the `add_arcs` loop: bulk insert-or-ignore of the
arc rows. -/
def _add_arcs_body (st : CovData) (entry : String × List (Int × Int)) :
    Except CovErr CovData := do
  let p ← _file_id st entry.1 true
  let st := p.1
  let fid := p.2.getD 0
  let cid := st.current_context_id.getD 0
  let db := getDb st
  let rows := entry.2.map (fun a => (fid, cid, a.1, a.2))
  let db :=
    { db with
      arc := rows.foldl (fun t r => if r ∈ t then t else t ++ [r]) db.arc }
  Except.ok { st with disk := some db }

/-- Embedding of `CoverageData.add_arcs`. -/
def add_arcs (st : CovData) (arc_data : List (String × List (Int × Int))) :
    Except CovErr CovData := do
  let st := _start_using st
  let st ← _choose_lines_or_arcs st false true
  if arc_data.isEmpty then Except.ok st
  else do
    let st ← _connect st
    let st ← _set_context_id st
    arc_data.foldlM _add_arcs_body st

/-- Embedding of `CoverageData.file_tracer`: `none` for an unmeasured
file, `""` for a measured file without a tracer row. -/
def file_tracer (st : CovData) (filename : String) :
    Except CovErr (CovData × Option String) := do
  let st := _start_using st
  let st ← _connect st
  let p ← _file_id st filename false
  let st := p.1
  match p.2 with
  | none => Except.ok (st, none)
  | some fid =>
    match assocGet (getDb st).tracer fid with
    | some tr => Except.ok (st, some tr)
    | none => Except.ok (st, some "")

/-- Per-entry body of the `add_file_tracers` loop. -/
def _add_file_tracers_body (st : CovData) (entry : String × String) :
    Except CovErr CovData := do
  let p ← _file_id st entry.1 false
  let st := p.1
  match p.2 with
  | none =>
    Except.error ⟨ErrKind.unknownFile,
      "Can't add file tracer data for unmeasured file '" ++ entry.1 ++ "'"⟩
  | some fid => do
    let q ← file_tracer st entry.1
    let st := q.1
    let existing := q.2.getD ""
    if existing ≠ "" then
      if existing ≠ entry.2 then
        Except.error ⟨ErrKind.tracerConflict,
          "Conflicting file tracer name for '" ++ entry.1 ++ "': " ++
            existing ++ " vs " ++ entry.2⟩
      else Except.ok st
    else if entry.2 ≠ "" then
      let db := getDb st
      Except.ok
        { st with disk := some { db with tracer := db.tracer ++ [(fid, entry.2)] } }
    else Except.ok st

/-- Embedding of `CoverageData.add_file_tracers`. -/
def add_file_tracers (st : CovData) (file_tracers : List (String × String)) :
    Except CovErr CovData :=
  if file_tracers.isEmpty then Except.ok st
  else do
    let st := _start_using st
    let st ← _connect st
    file_tracers.foldlM _add_file_tracers_body st

/-- Per-file body of the `touch_files` loop. -/
def _touch_files_body (plugin_name : String) (st : CovData) (filename : String) :
    Except CovErr CovData := do
  let p ← _file_id st filename true
  if plugin_name ≠ "" then add_file_tracers p.1 [(filename, plugin_name)]
  else Except.ok p.1

/-- Embedding of `CoverageData.touch_files`. -/
def touch_files (st : CovData) (filenames : List String) (plugin_name : String) :
    Except CovErr CovData := do
  let st := _start_using st
  let st ← _connect st
  if !st.has_arcs && !st.has_lines then
    Except.error ⟨ErrKind.emptyMode, "Can't touch files in an empty CoverageData"⟩
  else
    filenames.foldlM (_touch_files_body plugin_name) st

/-- Embedding of `CoverageData.measured_files`: the keys of the file
map. -/
def measured_files (st : CovData) : List String :=
  st.file_map.map (fun r => r.1)

/-- Embedding of `CoverageData.measured_contexts`. -/
def measured_contexts (st : CovData) : Except CovErr (CovData × List String) := do
  let st := _start_using st
  let st ← _connect st
  Except.ok (st, listDistinct ((getDb st).context.map (fun r => r.2)))

/-- Embedding of `CoverageData.arcs`: distinct `(fromno, tono)` pairs for
the file, optionally filtered by the query contexts; `none` for an
unmeasured file. -/
def arcs (st : CovData) (filename : String) :
    Except CovErr (CovData × Option (List (Int × Int))) := do
  let st := _start_using st
  let st ← _connect st
  let p ← _file_id st filename false
  let st := p.1
  match p.2 with
  | none => Except.ok (st, none)
  | some fid =>
    let db := getDb st
    let rows := db.arc.filter (fun r =>
      r.1 == fid &&
        (match st.query_context_ids with
         | none => true
         | some ids => ids.contains r.2.1))
    Except.ok (st, some (listDistinct (rows.map (fun r => r.2.2))))

/-- Embedding of `CoverageData.lines`: in arc mode, the positive
endpoints of the arcs; otherwise decode the union of the `line_bits` rows
of the file, optionally filtered by the query contexts; `none` for an
unmeasured file. -/
def lines (st : CovData) (filename : String) :
    Except CovErr (CovData × Option (List Nat)) := do
  let st := _start_using st
  let p ←
    if st.has_arcs then do
      let q ← arcs st filename
      match q.2 with
      | some l =>
        let nums := l.foldl (fun acc a =>
          let acc := if 0 < a.1 then setAdd acc a.1.toNat else acc
          if 0 < a.2 then setAdd acc a.2.toNat else acc) []
        Except.ok (q.1, some (some nums))
      | none => Except.ok (q.1, (none : Option (Option (List Nat))))
    else Except.ok (st, none)
  match p.2 with
  | some res => Except.ok (p.1, res)
  | none => do
    let st := p.1
    let st ← _connect st
    let q ← _file_id st filename false
    let st := q.1
    match q.2 with
    | none => Except.ok (st, none)
    | some fid =>
      let db := getDb st
      let rows := db.line_bits.filter (fun r =>
        r.1 == fid &&
          (match st.query_context_ids with
           | none => true
           | some ids => ids.contains r.2.1))
      let nums := rows.foldl (fun acc r => (numbits_to_nums r.2.2).foldl setAdd acc) []
      Except.ok (st, some nums)

/-- The byte `'z'`. -/
def zByte : Nat := 122

/-- Embedding of `CoverageData.dumps`.  The SQL text dump and the deflate
compressor are external (`sqlite3.Connection.iterdump`, `zlib`), passed as
parameters. -/
def dumps (compress : List Nat → List Nat) (dump : DbState → List Nat)
    (st : CovData) : Except CovErr (CovData × List Nat) :=
  match _connect st with
  | Except.error e => Except.error e
  | Except.ok st => Except.ok (st, zByte :: compress (dump (getDb st)))

/-- Tail of `loads` after the blob check: run the script into a fresh
connection, then `_read_db` and mark the handle used. -/
def loadsBody (st : CovData) : Except CovErr CovData :=
  match _read_db st with
  | Except.error e => Except.error e
  | Except.ok st => Except.ok { st with have_used := true }

/-- Embedding of `CoverageData.loads`.  Decompression and execution of the
SQL script are external (`zlib`, `sqlite3`), passed as parameters. -/
def loads (decompress : List Nat → List Nat) (dbOfScript : List Nat → DbState)
    (st : CovData) (data : List Nat) : Except CovErr CovData :=
  if data.take 1 ≠ [zByte] then
    Except.error ⟨ErrKind.badBlob,
      "Unrecognized serialization: head of " ++ toString data.length ++ " bytes"⟩
  else
    loadsBody
      { st with
        connected := true
        disk := some (dbOfScript (decompress (data.drop 1))) }

/-- Arc data read from the other store in `update`: each arc row joined
with its (aliased) file path and context name. -/
def updateArcs0 (odb : DbState) (aliases : String → String) :
    List (String × String × Int × Int) :=
  odb.arc.filterMap (fun r =>
    match assocGet odb.file r.1, assocGet odb.context r.2.1 with
    | some path, some ctx => some (aliases path, ctx, r.2.2.1, r.2.2.2)
    | _, _ => none)

/-- Line data read from the other store in `update`: the dict
comprehension over the other store's `line_bits` rows.  A later row with
the same `(aliased path, context)` key OVERWRITES an earlier one. -/
def updateLines0 (odb : DbState) (aliases : String → String) :
    List ((String × String) × List Nat) :=
  odb.line_bits.foldl (fun m r =>
    match assocGet odb.file r.1, assocGet odb.context r.2.1 with
    | some path, some ctx => assocSet m (aliases path, ctx) r.2.2
    | _, _ => m) []

/-- Tracer data of a store joined with its (aliased) file paths, as a
dict. -/
def updateTracers (db : DbState) (aliases : String → String) :
    List (String × String) :=
  db.tracer.foldl (fun m r =>
    match assocGet db.file r.1 with
    | some path => assocSet m (aliases path) r.2
    | none => m) []

/-- The destination side's `this_tracers` dict in `update`: every local
file defaults to `""`, overlaid with the existing tracer rows under
aliased paths. -/
def updateThisTracers (db : DbState) (aliases : String → String) :
    List (String × String) :=
  db.tracer.foldl (fun m r =>
    match assocGet db.file r.1 with
    | some path => assocSet m (aliases path) r.2
    | none => m) (db.file.foldl (fun m r => assocSet m r.2 "") [])

/-- Dict from path to row id built from the file table (also used for the
context table). -/
def idsOf (rows : List (Nat × String)) : List (String × Nat) :=
  rows.foldl (fun m r => assocSet m r.2 r.1) []

/-- Tracer reconciliation loop of `update`: fails with tracer-conflict if
a local file's tracer is present and differs from the incoming one. -/
def updateTracerMap (ofiles : List (Nat × String)) (aliases : String → String)
    (tracers this_tracers : List (String × String)) :
    Except CovErr (List (String × String)) :=
  ofiles.foldlM
    (fun (m : List (String × String)) r =>
      let path := aliases r.2
      let other_tracer := (assocGet tracers path).getD ""
      match assocGet this_tracers path with
      | some t =>
        if t ≠ other_tracer then
          Except.error ⟨ErrKind.tracerConflict,
            "Conflicting file tracer name for '" ++ path ++ "': " ++ t ++
              " vs " ++ other_tracer⟩
        else Except.ok (assocSet m path other_tracer)
      | none => Except.ok (assocSet m path other_tracer)) []

/-- Second line read of `update`: the destination's own `line_bits` rows,
aliased and unioned into the dict built from the other store. -/
def updateLines1 (db : DbState) (aliases : String → String)
    (lines0 : List ((String × String) × List Nat)) :
    List ((String × String) × List Nat) :=
  db.line_bits.foldl (fun m r =>
    match assocGet db.file r.1, assocGet db.context r.2.1 with
    | some path, some ctx =>
      match assocGet m (aliases path, ctx) with
      | some nb => assocSet m (aliases path, ctx) (numbits_union nb r.2.2)
      | none => assocSet m (aliases path, ctx) r.2.2
    | _, _ => m) lines0

/-- Arc write phase of `update`: `insert or ignore` of all incoming arc
rows. -/
def updateWriteArcs (arc_rows : List (Nat × Nat × Int × Int)) (st : CovData) :
    Except CovErr CovData := do
  let st ← _choose_lines_or_arcs st false true
  let db := getDb st
  let db :=
    { db with
      arc := arc_rows.foldl (fun t r => if r ∈ t then t else t ++ [r]) db.arc }
  Except.ok { st with disk := some db }

/-- Line write phase of `update`: delete all of `line_bits`, then insert
the combined dict. -/
def updateWriteLines (file_ids context_ids : List (String × Nat))
    (lines1 : List ((String × String) × List Nat)) (st : CovData) :
    Except CovErr CovData := do
  let st ← _choose_lines_or_arcs st true false
  let db := getDb st
  let db :=
    { db with
      line_bits := lines1.map (fun e =>
        ((assocGet file_ids e.1.1).getD 0,
          (assocGet context_ids e.1.2).getD 0, e.2)) }
  Except.ok { st with disk := some db }

/-- Tracer write phase of `update`: `insert or ignore` of the reconciled
tracer mapping (the tracer table's primary key is the file id). -/
def updateWriteTracers (file_ids : List (String × Nat))
    (tracer_map : List (String × String)) (st : CovData) : CovData :=
  let db := getDb st
  let db :=
    { db with
      tracer := tracer_map.foldl (fun t e =>
        let fid := (assocGet file_ids e.1).getD 0
        if (assocGet t fid).isSome then t else t ++ [(fid, e.2)]) db.tracer }
  { st with disk := some db }

/-- Main body of `update` after the mode check, with both stores
connected. -/
def updateBody (st : CovData) (odb : DbState) (aliases : String → String) :
    Except CovErr CovData := do
  let arcs0 := updateArcs0 odb aliases
  let lines0 := updateLines0 odb aliases
  let db := getDb st
  let this_tracers := updateThisTracers db aliases
  let db := odb.file.foldl (fun d r => fileInsertIgnore d (aliases r.2)) db
  let file_ids := idsOf db.file
  let db := (odb.context.map (fun r => r.2)).foldl contextInsertIgnore db
  let context_ids := idsOf db.context
  let tracer_map ← updateTracerMap odb.file aliases (updateTracers odb aliases)
    this_tracers
  let arc_rows : List (Nat × Nat × Int × Int) :=
    arcs0.map (fun a =>
      ((assocGet file_ids a.1).getD 0, (assocGet context_ids a.2.1).getD 0,
        a.2.2.1, a.2.2.2))
  let lines1 := updateLines1 db aliases lines0
  let st := { st with disk := some db }
  let st ← if arcs0.isEmpty then Except.ok st else updateWriteArcs arc_rows st
  let st ←
    if lines1.isEmpty then Except.ok st
    else updateWriteLines file_ids context_ids lines1 st
  let st := updateWriteTracers file_ids tracer_map st
  read (_reset st)

/-- Embedding of `CoverageData.update`.  `aliases` is the external
`PathAliases.map` collaborator; `none` in the source means the identity,
so the function itself is the parameter. -/
def update (st : CovData) (other : CovData) (aliases : String → String) :
    Except CovErr CovData :=
  if st.has_lines && other.has_arcs then
    Except.error ⟨ErrKind.mixedMode, "Can't combine arc data with line data"⟩
  else if st.has_arcs && other.has_lines then
    Except.error ⟨ErrKind.mixedMode, "Can't combine line data with arc data"⟩
  else do
    let st := _start_using st
    let other ← read other
    let st ← _connect st
    updateBody st (getDb other) aliases

/-! ## Generic lemmas about the set and insert-or-ignore folds -/

theorem mem_foldl_setAdd {α : Type} [DecidableEq α] (l acc : List α) (x : α) :
    x ∈ l.foldl setAdd acc ↔ x ∈ acc ∨ x ∈ l := by
  induction l generalizing acc with
  | nil => simp
  | cons y ys ih =>
    rw [List.foldl_cons, ih, setAdd]
    by_cases hy : y ∈ acc
    · rw [if_pos hy]
      simp only [List.mem_cons]
      constructor
      · rintro (h | h)
        · exact Or.inl h
        · exact Or.inr (Or.inr h)
      · rintro (h | h | h)
        · exact Or.inl h
        · subst h
          exact Or.inl hy
        · exact Or.inr h
    · rw [if_neg hy]
      simp only [List.mem_append, List.mem_singleton, List.mem_cons]
      tauto

theorem mem_listDistinct {α : Type} [DecidableEq α] (l : List α) (x : α) :
    x ∈ listDistinct l ↔ x ∈ l := by
  rw [listDistinct, mem_foldl_setAdd]
  simp

theorem nodup_setAdd {α : Type} [DecidableEq α] {acc : List α} (h : acc.Nodup)
    (x : α) : (setAdd acc x).Nodup := by
  rw [setAdd]
  split
  · exact h
  · rename_i hx
    rw [List.nodup_append]
    exact ⟨h, List.nodup_singleton x, by simpa using hx⟩

theorem nodup_foldl_setAdd {α : Type} [DecidableEq α] (l : List α) {acc : List α}
    (h : acc.Nodup) : (l.foldl setAdd acc).Nodup := by
  induction l generalizing acc with
  | nil => exact h
  | cons y ys ih => exact ih (nodup_setAdd h y)

theorem nodup_listDistinct {α : Type} [DecidableEq α] (l : List α) :
    (listDistinct l).Nodup :=
  nodup_foldl_setAdd l List.nodup_nil

theorem foldl_insertIgnore_of_all_mem {α : Type} [BEq α] [LawfulBEq α] (l t : List α)
    (h : ∀ x ∈ l, x ∈ t) :
    l.foldl (fun t r => if r ∈ t then t else t ++ [r]) t = t := by
  induction l with
  | nil => rfl
  | cons x xs ih =>
    rw [List.foldl_cons, if_pos (h x (List.mem_cons_self x xs))]
    exact ih (fun y hy => h y (List.mem_cons_of_mem x hy))

theorem foldl_insertIgnore_fresh {α : Type} [BEq α] [LawfulBEq α] (l : List α) :
    ∀ t : List α, l.Nodup → (∀ x ∈ l, x ∉ t) →
      l.foldl (fun t r => if r ∈ t then t else t ++ [r]) t = t ++ l := by
  induction l with
  | nil => intro t _ _; simp
  | cons x xs ih =>
    intro t hd h
    rw [List.foldl_cons, if_neg (h x (List.mem_cons_self x xs))]
    rw [ih (t ++ [x]) (List.Nodup.of_cons hd) ?fresh]
    · simp
    case fresh =>
      intro y hy
      rw [List.mem_append, List.mem_singleton]
      rintro (hyt | rfl)
      · exact h y (List.mem_cons_of_mem x hy) hyt
      · exact (List.nodup_cons.mp hd).1 hy

theorem foldlM_except_induct {β : Type} {P : CovData → Prop}
    {f : CovData → β → Except CovErr CovData}
    (hf : ∀ st x st', P st → f st x = Except.ok st' → P st') :
    ∀ (l : List β) (st st' : CovData), P st →
      l.foldlM f st = Except.ok st' → P st' := by
  intro l
  induction l with
  | nil =>
    intro st st' hP hok
    simp only [List.foldlM_nil] at hok
    cases hok
    exact hP
  | cons x xs ih =>
    intro st st' hP hok
    rw [List.foldlM_cons] at hok
    cases hfx : f st x with
    | error e =>
      rw [hfx] at hok
      cases hok
    | ok st1 =>
      rw [hfx] at hok
      exact ih st1 st' (hf st x st1 hP hfx) hok

/-! ## C6: the schema gate on opening an existing file -/

/-- C6: opening an existing data file fails with the malformed-file error
when the schema-version row is absent; fails with the schema-mismatch
error when the recorded version differs from the compiled-in version 7,
the message containing both version numbers; and succeeds exactly when the
versions are equal. -/
theorem C6_schema_gate (filename : String) (db : DbState) :
    (db.schema_version = none →
      ∃ e, read (newHandle filename (some db)) = Except.error e ∧
        e.kind = ErrKind.malformed) ∧
    (∀ v, db.schema_version = some v → v ≠ SCHEMA_VERSION →
      ∃ e, read (newHandle filename (some db)) = Except.error e ∧
        e.kind = ErrKind.schemaMismatch ∧
        ∃ s1 s2, e.msg = s1 ++ toString v ++ s2 ++ toString SCHEMA_VERSION) ∧
    ((∃ st, read (newHandle filename (some db)) = Except.ok st) ↔
      db.schema_version = some SCHEMA_VERSION) := by
  refine ⟨?_, ?_, ?_⟩
  · intro hv
    refine ⟨⟨ErrKind.malformed, "Data file '" ++ filename ++
      "' doesn't seem to be a coverage data file: couldn't read schema version"⟩,
      ?_, rfl⟩
    simp [read, _connect, _open_db, _read_db, newHandle, hv, bind, Except.bind]
  · intro v hv hne
    refine ⟨⟨ErrKind.schemaMismatch,
      "Couldn't use data file '" ++ filename ++ "': wrong schema: " ++
        toString v ++ " instead of " ++ toString SCHEMA_VERSION⟩, ?_, rfl,
      "Couldn't use data file '" ++ filename ++ "': wrong schema: ",
      " instead of ", rfl⟩
    simp [read, _connect, _open_db, _read_db, newHandle, hv, hne,
      bind, Except.bind]
  · constructor
    · rintro ⟨st, hok⟩
      rcases hv : db.schema_version with - | v
      · simp [read, _connect, _open_db, _read_db, newHandle, hv,
          bind, Except.bind] at hok
      · by_cases h7 : v = SCHEMA_VERSION
        · subst h7
          exact rfl
        · simp [read, _connect, _open_db, _read_db, newHandle, hv, h7,
            bind, Except.bind] at hok
    · intro hv
      rcases hm : db.has_arcs_meta with - | b
      · exact ⟨⟨filename, some db, true,
          db.file.foldl (fun m r => assocSet m r.2 r.1) [], true, false, false,
          none, none, none⟩, by simp [read, _connect, _open_db, _read_db,
            newHandle, hv, hm, SCHEMA_VERSION, bind, Except.bind]⟩
      · exact ⟨⟨filename, some db, true,
          db.file.foldl (fun m r => assocSet m r.2 r.1) [], true, !b, b,
          none, none, none⟩, by simp [read, _connect, _open_db, _read_db,
            newHandle, hv, hm, SCHEMA_VERSION, bind, Except.bind]⟩

/-- Witness for C6 at the concrete on-disk version 6 (the spec's schema
gate scenario). -/
theorem C6_schema_gate_witness :
    ∃ e, read (newHandle ".coverage" (some { createDb with schema_version := some 6 })) =
        Except.error e ∧
      e.kind = ErrKind.schemaMismatch ∧
      ∃ s1 s2, e.msg = s1 ++ toString 6 ++ s2 ++ toString SCHEMA_VERSION :=
  (C6_schema_gate ".coverage" { createDb with schema_version := some 6 }).2.1
    6 rfl (by decide)

/-! ## C7: use without read erases an existing data file -/

/-- C7: on a newly constructed handle whose data file exists, the first
database-using operation without a prior `read()` erases the file and
proceeds on an empty store (`measured_contexts` finds nothing, `lines`
knows no file); calling `read()` first prevents the erasure: the disk
state survives and `measured_contexts` sees its context rows. -/
theorem mem_map_snd_iff {α β : Type} (l : List (α × β)) (c : β) :
    c ∈ l.map (fun r => r.2) ↔ ∃ id, (id, c) ∈ l := by
  rw [List.mem_map]
  constructor
  · rintro ⟨r, hr, hrc⟩
    refine ⟨r.1, ?_⟩
    rw [show ((r.1 : α), c) = r from by rw [← hrc]]
    exact hr
  · rintro ⟨id, hid⟩
    exact ⟨(id, c), hid, rfl⟩

theorem measured_contexts_eval (st : CovData) (hu : st.have_used = true)
    (hc : st.connected = true) :
    measured_contexts st = Except.ok ({ st with have_used := true },
      listDistinct ((getDb st).context.map (fun r => r.2))) := by
  simp only [measured_contexts, _start_using, hu, if_true, _connect, hc,
    bind, Except.bind]
  rfl

theorem C7_first_use_erases (filename p : String) (db : DbState) :
    (∃ stA, measured_contexts (newHandle filename (some db)) =
        Except.ok (stA, []) ∧ stA.disk = some createDb) ∧
    (∃ stB, lines (newHandle filename (some db)) p = Except.ok (stB, none)) ∧
    (db.schema_version = some SCHEMA_VERSION →
      ∃ stC, read (newHandle filename (some db)) = Except.ok stC ∧
        stC.disk = some db ∧
        ∃ stD l, measured_contexts stC = Except.ok (stD, l) ∧
          stD.disk = some db ∧
          ∀ c, c ∈ l ↔ ∃ id, (id, c) ∈ db.context) := by
  refine ⟨⟨⟨filename, some createDb, true, [], true, false, false,
      none, none, none⟩, rfl, rfl⟩,
    ⟨⟨filename, some createDb, true, [], true, false, false,
      none, none, none⟩, rfl⟩, ?_⟩
  intro hv
  have haux : ∀ stC : CovData, stC.disk = some db → stC.have_used = true →
      stC.connected = true →
      ∃ stD l, measured_contexts stC = Except.ok (stD, l) ∧
        stD.disk = some db ∧
        ∀ c, c ∈ l ↔ ∃ id, (id, c) ∈ db.context := by
    intro stC hd hu hc
    refine ⟨_, _, measured_contexts_eval stC hu hc, hd, ?_⟩
    intro c
    rw [mem_listDistinct, getDb, hd, Option.getD_some, mem_map_snd_iff]
  rcases hm : db.has_arcs_meta with - | b
  · have hread : read (newHandle filename (some db)) = Except.ok
        ⟨filename, some db, true,
          db.file.foldl (fun m r => assocSet m r.2 r.1) [], true, false, false,
          none, none, none⟩ := by
      simp [read, _connect, _open_db, _read_db, newHandle, hv, hm,
        SCHEMA_VERSION, bind, Except.bind]
    exact ⟨_, hread, rfl, haux _ rfl rfl rfl⟩
  · have hread : read (newHandle filename (some db)) = Except.ok
        ⟨filename, some db, true,
          db.file.foldl (fun m r => assocSet m r.2 r.1) [], true, !b, b,
          none, none, none⟩ := by
      simp [read, _connect, _open_db, _read_db, newHandle, hv, hm,
        SCHEMA_VERSION, bind, Except.bind]
    exact ⟨_, hread, rfl, haux _ rfl rfl rfl⟩

/-- Database with one context row, for the C7 witness. -/
def db0 : DbState :=
  { createDb with context := [(1, "t1")], next_context_id := 2 }

/-- Witness for C7 at a concrete database holding one context row. -/
theorem C7_first_use_erases_witness :
    ∃ stC, read (newHandle "f" (some db0)) = Except.ok stC ∧
      stC.disk = some db0 ∧
      ∃ stD l, measured_contexts stC = Except.ok (stD, l) ∧
        stD.disk = some db0 ∧
        ∀ c, c ∈ l ↔ ∃ id, (id, c) ∈ db0.context :=
  (C7_first_use_erases "f" "p" db0).2.2 rfl

/-! ## C8: the serialization blob gate -/

/-- C8: `loads` fails with the bad-blob error exactly when the first byte
of its input is not `'z'`; `dumps` always returns a byte string starting
with `'z'`, so `loads` never raises bad-blob on the output of `dumps`. -/
theorem read_db_not_badBlob (st : CovData) :
    errKind (_read_db st) ≠ some ErrKind.badBlob := by
  rw [_read_db]
  cases hd : st.disk with
  | none => simp [errKind]
  | some db =>
    cases hv : db.schema_version with
    | none => simp [hv, errKind]
    | some v =>
      by_cases h7 : v ≠ SCHEMA_VERSION
      · simp [hv, h7, errKind]
      · cases hm : db.has_arcs_meta <;> simp [hv, h7, hm, errKind]

theorem errKind_loadsBody (st : CovData) :
    errKind (loadsBody st) = errKind (_read_db st) := by
  rw [loadsBody]
  cases hr : _read_db st <;> rfl

theorem C8_blob_gate (compress decompress : List Nat → List Nat)
    (dump : DbState → List Nat) (dbOfScript : List Nat → DbState) :
    (∀ st data, errKind (loads decompress dbOfScript st data) =
        some ErrKind.badBlob ↔ data.head? ≠ some zByte) ∧
    (∀ st st2 stout out, dumps compress dump st = Except.ok (stout, out) →
      out.head? = some zByte ∧
      errKind (loads decompress dbOfScript st2 out) ≠ some ErrKind.badBlob) := by
  have key : ∀ st data, errKind (loads decompress dbOfScript st data) =
      some ErrKind.badBlob ↔ data.head? ≠ some zByte := by
    intro st data
    have htake : (data.take 1 ≠ [zByte]) ↔ data.head? ≠ some zByte := by
      cases data with
      | nil => simp
      | cons b bs => simp [List.take_succ_cons]
    rw [loads]
    split
    · rename_i hne
      simpa [errKind] using htake.mp hne
    · rename_i heq
      have hh : data.head? = some zByte := by
        by_contra hcon
        exact heq (htake.mpr hcon)
      rw [hh]
      simp only [ne_eq, not_true_eq_false, iff_false]
      rw [errKind_loadsBody]
      exact read_db_not_badBlob _
  refine ⟨key, ?_⟩
  intro st st2 stout out hok
  rw [dumps] at hok
  cases hc : _connect st with
  | error e =>
    rw [hc] at hok
    cases hok
  | ok st1 =>
    rw [hc] at hok
    cases hok
    refine ⟨rfl, ?_⟩
    rw [ne_eq, key]
    simp

/-- Witness for C8: dumping a fresh store (with the identity compressor
and an empty text dump) yields a blob that `loads` does not reject. -/
theorem C8_blob_gate_witness :
    (([zByte] : List Nat).head? = some zByte) ∧
    errKind (loads (fun x => x) (fun _ => createDb) initCov [zByte]) ≠
      some ErrKind.badBlob :=
  (C8_blob_gate (fun _ => []) (fun x => x) (fun _ => [])
    (fun _ => createDb)).2 initCov initCov _ [zByte] rfl

/-! ## C1: two add_lines calls union their line sets -/

/-- C1: on one store with a fixed current context, `add_lines {f: L1}`
followed by `add_lines {f: L2}` leaves `lines f` returning exactly the set
`L1 ∪ L2` (as an unordered list): the second write unions its numbits with
the existing `LineBits` row for `(file_id, context_id)`. -/
theorem C1_add_lines_twice_union (f : String) (L1 L2 : List Nat) (c : String) :
    ∃ st l,
      (add_lines (set_context initCov c) [(f, L1)] >>= fun st1 =>
        add_lines st1 [(f, L2)] >>= fun st2 => lines st2 f) =
        Except.ok (st, some l) ∧
      ∀ n, n ∈ l ↔ (n ∈ L1 ∨ n ∈ L2) := by
  have heval :
      (add_lines (set_context initCov c) [(f, L1)] >>= fun st1 =>
        add_lines st1 [(f, L2)] >>= fun st2 => lines st2 f) =
        Except.ok
          (⟨".coverage", some ⟨some SCHEMA_VERSION, some false, [(1, f)], 2,
              [(1, c)], 2,
              [(1, 1, numbits_union (nums_to_numbits L2) (nums_to_numbits L1))],
              [], []⟩,
            true, [(f, 1)], true, true, false, some c, some 1, none⟩,
          some ((numbits_to_nums (numbits_union (nums_to_numbits L2)
            (nums_to_numbits L1))).foldl setAdd [])) := by
    simp [add_lines, set_context, initCov, newHandle, _start_using, erase,
      _reset, _choose_lines_or_arcs, _connect, _create_db, createDb,
      _set_context_id, _context_id, ctxIdLookup, getDb, _add_lines_body,
      _file_id, assocGet, assocSet, fileInsertOrReplace, contextInsert,
      SCHEMA_VERSION, lines, bind, Except.bind, pure, Except.pure,
      List.foldlM]
  refine ⟨_, _, heval, ?_⟩
  intro n
  rw [mem_foldl_setAdd]
  simp only [List.not_mem_nil, false_or]
  rw [mem_numbits_to_nums, nbGet_numbits_union, nbGet_nums_to_numbits,
    nbGet_nums_to_numbits]
  simp [or_comm]

/-! ## C5: add_arcs is idempotent -/

/-- C5: after `add_arcs {f: A1}` twice on the same store in the same
context, the arc table holds exactly `|A1|` rows for `f`, each row at most
once, and `arcs f` returns exactly the distinct pairs of `A1`. -/
theorem C5_add_arcs_idempotent (f : String) (A1 : List (Int × Int))
    (hnd : A1.Nodup) (st2 : CovData)
    (h : (add_arcs initCov [(f, A1)] >>= fun st1 => add_arcs st1 [(f, A1)]) =
      Except.ok st2) :
    ∃ fid, assocGet st2.file_map f = some fid ∧
      ((getDb st2).arc.filter (fun r => r.1 == fid)).length = A1.length ∧
      (getDb st2).arc.Nodup ∧
      ∃ l, arcs st2 f = Except.ok (st2, some l) ∧ l.Nodup ∧
        ∀ a, a ∈ l ↔ a ∈ A1 := by
  have echain :
      (add_arcs initCov [(f, A1)] >>= fun st1 => add_arcs st1 [(f, A1)]) =
        Except.ok
          ⟨".coverage", some ⟨some SCHEMA_VERSION, some true, [(1, f)], 2,
              [(1, "")], 2, [],
              ((A1.map (fun a => ((1 : Nat), (1 : Nat), a.1, a.2))).foldl
                  (fun t r => if r ∈ t then t else t ++ [r])
                ((A1.map (fun a => ((1 : Nat), (1 : Nat), a.1, a.2))).foldl
                  (fun t r => if r ∈ t then t else t ++ [r]) [])),
              []⟩,
            true, [(f, 1)], true, false, true, none, some 1, none⟩ := by
    simp [add_arcs, initCov, newHandle, _start_using, erase, _reset,
      _choose_lines_or_arcs, _connect, _create_db, createDb, _set_context_id,
      _context_id, ctxIdLookup, getDb, _add_arcs_body, _file_id, assocGet,
      assocSet, fileInsertOrReplace, contextInsert, SCHEMA_VERSION,
      bind, Except.bind, pure, Except.pure, List.foldlM]
  rw [echain] at h
  injection h with h
  subst h
  have hinj : Function.Injective
      (fun a : Int × Int => ((1 : Nat), (1 : Nat), a.1, a.2)) := by
    intro a b hab
    simp only [Prod.mk.injEq, true_and] at hab
    exact Prod.ext hab.1 hab.2
  have hrn : (A1.map (fun a => ((1 : Nat), (1 : Nat), a.1, a.2))).Nodup :=
    List.Nodup.map hinj hnd
  have hfold1 : (A1.map (fun a => ((1 : Nat), (1 : Nat), a.1, a.2))).foldl
      (fun t r => if r ∈ t then t else t ++ [r]) [] =
      A1.map (fun a => ((1 : Nat), (1 : Nat), a.1, a.2)) := by
    have := foldl_insertIgnore_fresh
      (A1.map (fun a => ((1 : Nat), (1 : Nat), a.1, a.2))) [] hrn
      (fun x _ hx => List.not_mem_nil x hx)
    simpa using this
  rw [hfold1]
  rw [foldl_insertIgnore_of_all_mem
    (A1.map (fun a => ((1 : Nat), (1 : Nat), a.1, a.2)))
    (A1.map (fun a => ((1 : Nat), (1 : Nat), a.1, a.2))) (fun x hx => hx)]
  have hfil : (A1.map (fun a => ((1 : Nat), (1 : Nat), a.1, a.2))).filter
      (fun r => r.1 == 1) = A1.map (fun a => ((1 : Nat), (1 : Nat), a.1, a.2)) := by
    rw [List.filter_eq_self]
    intro a ha
    rcases List.mem_map.mp ha with ⟨b, -, rfl⟩
    simp
  have hback : (A1.map (fun a => ((1 : Nat), (1 : Nat), a.1, a.2))).map
      (fun r => r.2.2) = A1 := by
    rw [List.map_map]
    have hcomp : ((fun r : Nat × Nat × Int × Int => r.2.2) ∘
        fun a : Int × Int => ((1 : Nat), (1 : Nat), a.1, a.2)) = fun a => a := by
      funext a
      rfl
    rw [hcomp]
    simp
  refine ⟨1, by simp [assocGet], ?_, ?_, ?_⟩
  · simp only [getDb, Option.getD_some]
    rw [hfil, List.length_map]
  · simp only [getDb, Option.getD_some]
    exact hrn
  · have earcs : arcs
        ⟨".coverage", some ⟨some SCHEMA_VERSION, some true, [(1, f)], 2,
            [(1, "")], 2, [],
            A1.map (fun a => ((1 : Nat), (1 : Nat), a.1, a.2)), []⟩,
          true, [(f, 1)], true, false, true, none, some 1, none⟩ f =
        Except.ok
          (⟨".coverage", some ⟨some SCHEMA_VERSION, some true, [(1, f)], 2,
              [(1, "")], 2, [],
              A1.map (fun a => ((1 : Nat), (1 : Nat), a.1, a.2)), []⟩,
            true, [(f, 1)], true, false, true, none, some 1, none⟩,
          some (listDistinct
            (((A1.map (fun a => ((1 : Nat), (1 : Nat), a.1, a.2))).filter
              (fun r => r.1 == 1)).map (fun r => r.2.2)))) := by
      simp [arcs, _start_using, _connect, _file_id, assocGet, getDb,
        bind, Except.bind, pure, Except.pure]
    refine ⟨_, earcs, nodup_listDistinct _, ?_⟩
    intro a
    rw [mem_listDistinct, hfil, hback]

/-- State after the two concrete `add_arcs` calls of the C5 witness. -/
def arcStore2 : CovData :=
  match (add_arcs initCov [("a.py", [((1 : Int), (2 : Int)),
      ((2 : Int), (-2 : Int))])] >>= fun st1 =>
    add_arcs st1 [("a.py", [((1 : Int), (2 : Int)), ((2 : Int), (-2 : Int))])]) with
  | Except.ok st => st
  | Except.error _ => initCov

/-- Witness for C5 at the spec's concrete arc set `{(1,2), (2,-2)}`. -/
theorem C5_add_arcs_idempotent_witness :
    ∃ fid, assocGet arcStore2.file_map "a.py" = some fid ∧
      ((getDb arcStore2).arc.filter (fun r => r.1 == fid)).length =
        [((1 : Int), (2 : Int)), ((2 : Int), (-2 : Int))].length ∧
      (getDb arcStore2).arc.Nodup ∧
      ∃ l, arcs arcStore2 "a.py" = Except.ok (arcStore2, some l) ∧ l.Nodup ∧
        ∀ a, a ∈ l ↔ a ∈ [((1 : Int), (2 : Int)), ((2 : Int), (-2 : Int))] :=
  C5_add_arcs_idempotent "a.py" [((1 : Int), (2 : Int)), ((2 : Int), (-2 : Int))]
    (by decide) arcStore2 rfl

/-! ## C9: adds with empty mappings still establish the mode -/

/-- C9: `add_lines` with an empty mapping still sets the store's mode (the
in-memory flags and the `has_arcs` meta row) even though no measurement
rows are added, so a subsequent `add_arcs` raises mixed-mode; and
symmetrically for `add_arcs` with an empty mapping. -/
theorem C9_empty_add_sets_mode :
    (∃ st, add_lines initCov [] = Except.ok st ∧
      st.has_lines = true ∧ st.has_arcs = false ∧
      (∃ db, st.disk = some db ∧ db.has_arcs_meta = some false) ∧
      ∀ d, errKind (add_arcs st d) = some ErrKind.mixedMode) ∧
    (∃ st, add_arcs initCov [] = Except.ok st ∧
      st.has_arcs = true ∧ st.has_lines = false ∧
      (∃ db, st.disk = some db ∧ db.has_arcs_meta = some true) ∧
      ∀ d, errKind (add_lines st d) = some ErrKind.mixedMode) := by
  constructor
  · refine ⟨_, rfl, rfl, rfl, ⟨_, rfl, rfl⟩, fun d => rfl⟩
  · refine ⟨_, rfl, rfl, rfl, ⟨_, rfl, rfl⟩, fun d => rfl⟩

/-! ## C3: mode exclusivity under sequences of writer operations -/

/-- One writer-API operation (spec section 4.5). -/
inductive WOp
  | addLines (d : List (String × List Nat))
  | addArcs (d : List (String × List (Int × Int)))
  | addFileTracers (d : List (String × String))
  | touchFiles (fns : List String) (plugin : String)
  | setContext (c : String)

/-- Run one writer operation. -/
def runOp (st : CovData) : WOp → Except CovErr CovData
  | WOp.addLines d => add_lines st d
  | WOp.addArcs d => add_arcs st d
  | WOp.addFileTracers d => add_file_tracers st d
  | WOp.touchFiles fns plugin => touch_files st fns plugin
  | WOp.setContext c => Except.ok (set_context st c)

/-- Run a sequence of writer operations, stopping at the first error. -/
def runSeq (st : CovData) (ops : List WOp) : Except CovErr CovData :=
  ops.foldlM runOp st

/-- The `has_arcs` meta row determined by the in-memory flags. -/
def metaOf (has_lines has_arcs : Bool) : Option Bool :=
  if has_arcs then some true else if has_lines then some false else none

/-- Invariant of the handle states reachable from a fresh store by writer
operations: the two mode flags are never both set; in a writer-only,
single-process life the data file exists exactly while a connection is
held; a connection implies the handle was used; a set mode implies a
connection; and the on-disk `has_arcs` meta row mirrors the flags. -/
structure Inv (st : CovData) : Prop where
  not_both : st.has_lines = false ∨ st.has_arcs = false
  disk_conn : st.disk.isSome = st.connected
  conn_used : st.connected = true → st.have_used = true
  mode_conn : st.has_lines = true ∨ st.has_arcs = true → st.connected = true
  meta_ok : ∀ db, st.disk = some db →
    db.has_arcs_meta = metaOf st.has_lines st.has_arcs

theorem inv_initCov : Inv initCov := by
  constructor
  · exact Or.inl rfl
  · rfl
  · intro h
    cases h
  · rintro (h | h) <;> cases h
  · intro db hdb
    cases hdb

theorem flags_false_of_not_connected {st : CovData} (h : Inv st)
    (hcf : st.connected = false) :
    st.has_lines = false ∧ st.has_arcs = false := by
  constructor
  · cases hh : st.has_lines
    · rfl
    · have := h.mode_conn (Or.inl hh)
      rw [hcf] at this
      cases this
  · cases hh : st.has_arcs
    · rfl
    · have := h.mode_conn (Or.inr hh)
      rw [hcf] at this
      cases this

theorem start_using_eq_of_used {st : CovData} (h : st.have_used = true) :
    _start_using st = st := by
  rw [_start_using, if_pos h]
  cases st with
  | mk fn dk cn fm hu hl ha cc cci qci =>
    have h' : hu = true := h
    subst h'
    rfl

theorem start_using_has_lines (st : CovData) :
    (_start_using st).has_lines = st.has_lines := by
  simp only [_start_using, erase, _reset]
  split <;> rfl

theorem start_using_has_arcs (st : CovData) :
    (_start_using st).has_arcs = st.has_arcs := by
  simp only [_start_using, erase, _reset]
  split <;> rfl

theorem start_using_have_used (st : CovData) :
    (_start_using st).have_used = true := by
  simp only [_start_using, erase, _reset]

theorem inv_start_using {st : CovData} (h : Inv st) : Inv (_start_using st) := by
  by_cases hu : st.have_used = true
  · rw [start_using_eq_of_used hu]
    exact h
  · have hcf : st.connected = false := by
      cases hcc : st.connected
      · rfl
      · exact absurd (h.conn_used hcc) hu
    obtain ⟨hl, ha⟩ := flags_false_of_not_connected h hcf
    have hs : _start_using st = { erase st with have_used := true } := by
      rw [_start_using, if_neg hu]
    rw [hs]
    constructor
    · exact Or.inl hl
    · rfl
    · intro hcc
      cases hcc
    · rintro (hh | hh)
      · rw [show ({ erase st with have_used := true } : CovData).has_lines =
          st.has_lines from rfl, hl] at hh
        cases hh
      · rw [show ({ erase st with have_used := true } : CovData).has_arcs =
          st.has_arcs from rfl, ha] at hh
        cases hh
    · intro db hdb
      cases hdb

/-- Fields of a state that the measurement-row writes never change. -/
def sameFrame (st st' : CovData) : Prop :=
  st'.has_lines = st.has_lines ∧ st'.has_arcs = st.has_arcs ∧
  st'.connected = st.connected ∧ st'.have_used = st.have_used ∧
  st'.disk.map DbState.has_arcs_meta = st.disk.map DbState.has_arcs_meta ∧
  st'.disk.isSome = st.disk.isSome

theorem sameFrame_refl (st : CovData) : sameFrame st st :=
  ⟨rfl, rfl, rfl, rfl, rfl, rfl⟩

theorem sameFrame_trans {s1 s2 s3 : CovData} (h12 : sameFrame s1 s2)
    (h23 : sameFrame s2 s3) : sameFrame s1 s3 := by
  obtain ⟨a1, a2, a3, a4, a5, a6⟩ := h12
  obtain ⟨b1, b2, b3, b4, b5, b6⟩ := h23
  exact ⟨b1.trans a1, b2.trans a2, b3.trans a3, b4.trans a4,
    b5.trans a5, b6.trans a6⟩

theorem inv_of_sameFrame {st st' : CovData} (h : Inv st)
    (hf : sameFrame st st') : Inv st' := by
  obtain ⟨h1, h2, h3, h4, h5, h6⟩ := hf
  constructor
  · rw [h1, h2]
    exact h.not_both
  · rw [h6, h3]
    exact h.disk_conn
  · rw [h3, h4]
    exact h.conn_used
  · rw [h1, h2, h3]
    exact h.mode_conn
  · intro db' hdb'
    rw [hdb'] at h5
    cases hdd : st.disk with
    | none =>
      rw [hdd] at h5
      simp at h5
    | some db0 =>
      rw [hdd] at h5
      simp only [Option.map_some', Option.some.injEq] at h5
      rw [h1, h2, h5]
      exact h.meta_ok db0 hdd

/-- Embedded mixed-mode error of `add_lines` on an arc store. -/
def mixedLinesErr : CovErr :=
  ⟨ErrKind.mixedMode, "Can't add line measurements to existing branch data"⟩

/-- Embedded mixed-mode error of `add_arcs` on a line store. -/
def mixedArcsErr : CovErr :=
  ⟨ErrKind.mixedMode, "Can't add branch measurements to existing line data"⟩

theorem add_lines_mixed {st : CovData} (h : st.has_arcs = true)
    (d : List (String × List Nat)) :
    add_lines st d = Except.error mixedLinesErr := by
  have hc : _choose_lines_or_arcs (_start_using st) true false =
      Except.error mixedLinesErr := by
    rw [_choose_lines_or_arcs, start_using_has_arcs, h]
    rfl
  rw [add_lines]
  simp [hc, bind, Except.bind]

theorem add_arcs_mixed {st : CovData} (h : st.has_lines = true)
    (d : List (String × List (Int × Int))) :
    add_arcs st d = Except.error mixedArcsErr := by
  have hc : _choose_lines_or_arcs (_start_using st) false true =
      Except.error mixedArcsErr := by
    rw [_choose_lines_or_arcs, start_using_has_lines, h]
    rfl
  rw [add_arcs]
  simp [hc, bind, Except.bind]

theorem connect_inv {st : CovData} (h : Inv st) (hu : st.have_used = true) :
    ∃ st', _connect st = Except.ok st' ∧ Inv st' ∧ st'.connected = true ∧
      st'.has_lines = st.has_lines ∧ st'.has_arcs = st.has_arcs ∧
      st'.have_used = true ∧ st'.disk.isSome = true := by
  cases hcc : st.connected with
  | true =>
    refine ⟨st, by rw [_connect, if_pos hcc], h, hcc, rfl, rfl, hu, ?_⟩
    rw [h.disk_conn, hcc]
  | false =>
    have hd : st.disk = none := by
      have hds := h.disk_conn
      rw [hcc] at hds
      cases hdd : st.disk with
      | none => rfl
      | some d =>
        rw [hdd] at hds
        simp at hds
    obtain ⟨hl, ha⟩ := flags_false_of_not_connected h hcc
    refine ⟨_create_db st, by simp [_connect, hcc, hd, _create_db], ?_,
      rfl, rfl, rfl, hu, rfl⟩
    constructor
    · exact Or.inl hl
    · rfl
    · intro _
      exact hu
    · intro _
      rfl
    · intro db hdb
      injection hdb with hdb
      subst hdb
      show createDb.has_arcs_meta = metaOf st.has_lines st.has_arcs
      rw [hl, ha]
      rfl

theorem choose_lines_ok {st st' : CovData} (h : Inv st)
    (hu : st.have_used = true)
    (hok : _choose_lines_or_arcs st true false = Except.ok st') :
    Inv st' ∧ st'.has_lines = true ∧ st'.has_arcs = false ∧
      st'.connected = true ∧ st'.have_used = true := by
  rw [_choose_lines_or_arcs] at hok
  cases ha : st.has_arcs with
  | true =>
    rw [ha] at hok
    simp at hok
  | false =>
    rw [ha] at hok
    cases hl : st.has_lines with
    | true =>
      rw [hl] at hok
      simp only [Bool.and_false, Bool.true_and, Bool.not_false, Bool.not_true,
        Bool.and_true, Bool.false_and, if_false, Bool.false_eq_true,
        reduceIte] at hok
      rw [Except.ok.injEq] at hok
      subst hok
      exact ⟨h, hl, ha, h.mode_conn (Or.inl hl), hu⟩
    | false =>
      rw [hl] at hok
      simp only [Bool.and_false, Bool.true_and, Bool.not_false,
        Bool.and_true, Bool.false_and, Bool.false_eq_true, reduceIte,
        bind, Except.bind] at hok
      cases hcc : st.connected with
      | true =>
        have hd : ∃ db, st.disk = some db := by
          have hds := h.disk_conn
          rw [hcc] at hds
          exact Option.isSome_iff_exists.mp hds
        obtain ⟨db, hdb⟩ := hd
        have hmeta : db.has_arcs_meta = none := by
          have := h.meta_ok db hdb
          rw [hl, ha] at this
          exact this
        rw [show _connect { st with has_lines := true, has_arcs := false } =
            Except.ok { st with has_lines := true, has_arcs := false } from by
          rw [_connect, if_pos hcc]] at hok
        simp only [getDb, hdb, Option.getD_some, hmeta] at hok
        rw [Except.ok.injEq] at hok
        subst hok
        refine ⟨?_, rfl, rfl, hcc, hu⟩
        constructor
        · exact Or.inr rfl
        · show (some _).isSome = st.connected
          rw [hcc]
          rfl
        · intro _
          exact hu
        · intro _
          exact hcc
        · intro db' hdb'
          injection hdb' with hdb'
          subst hdb'
          rfl
      | false =>
        have hdn : st.disk = none := by
          have hds := h.disk_conn
          rw [hcc] at hds
          cases hdd : st.disk with
          | none => rfl
          | some d =>
            rw [hdd] at hds
            simp at hds
        rw [show _connect { st with has_lines := true, has_arcs := false } =
            Except.ok (_create_db { st with has_lines := true, has_arcs := false })
            from by simp [_connect, hcc, hdn]] at hok
        simp only [_create_db, getDb, Option.getD_some, createDb] at hok
        rw [Except.ok.injEq] at hok
        subst hok
        refine ⟨?_, rfl, rfl, rfl, hu⟩
        constructor
        · exact Or.inr rfl
        · rfl
        · intro _
          exact hu
        · intro _
          rfl
        · intro db' hdb'
          injection hdb' with hdb'
          subst hdb'
          rfl

theorem choose_arcs_ok {st st' : CovData} (h : Inv st)
    (hu : st.have_used = true)
    (hok : _choose_lines_or_arcs st false true = Except.ok st') :
    Inv st' ∧ st'.has_arcs = true ∧ st'.has_lines = false ∧
      st'.connected = true ∧ st'.have_used = true := by
  rw [_choose_lines_or_arcs] at hok
  cases hl : st.has_lines with
  | true =>
    rw [hl] at hok
    simp at hok
  | false =>
    rw [hl] at hok
    cases ha : st.has_arcs with
    | true =>
      rw [ha] at hok
      simp only [Bool.and_true, Bool.false_and, Bool.not_true, Bool.not_false,
        Bool.and_false, if_false, Bool.false_eq_true, reduceIte] at hok
      rw [Except.ok.injEq] at hok
      subst hok
      exact ⟨h, ha, hl, h.mode_conn (Or.inr ha), hu⟩
    | false =>
      rw [ha] at hok
      simp only [Bool.and_true, Bool.false_and, Bool.not_false,
        Bool.and_false, Bool.false_eq_true, reduceIte,
        bind, Except.bind] at hok
      cases hcc : st.connected with
      | true =>
        have hd : ∃ db, st.disk = some db := by
          have hds := h.disk_conn
          rw [hcc] at hds
          exact Option.isSome_iff_exists.mp hds
        obtain ⟨db, hdb⟩ := hd
        have hmeta : db.has_arcs_meta = none := by
          have := h.meta_ok db hdb
          rw [hl, ha] at this
          exact this
        rw [show _connect { st with has_lines := false, has_arcs := true } =
            Except.ok { st with has_lines := false, has_arcs := true } from by
          rw [_connect, if_pos hcc]] at hok
        simp only [getDb, hdb, Option.getD_some, hmeta] at hok
        rw [Except.ok.injEq] at hok
        subst hok
        refine ⟨?_, rfl, rfl, hcc, hu⟩
        constructor
        · exact Or.inl rfl
        · show (some _).isSome = st.connected
          rw [hcc]
          rfl
        · intro _
          exact hu
        · intro _
          exact hcc
        · intro db' hdb'
          injection hdb' with hdb'
          subst hdb'
          rfl
      | false =>
        have hdn : st.disk = none := by
          have hds := h.disk_conn
          rw [hcc] at hds
          cases hdd : st.disk with
          | none => rfl
          | some d =>
            rw [hdd] at hds
            simp at hds
        rw [show _connect { st with has_lines := false, has_arcs := true } =
            Except.ok (_create_db { st with has_lines := false, has_arcs := true })
            from by simp [_connect, hcc, hdn]] at hok
        simp only [_create_db, getDb, Option.getD_some, createDb] at hok
        rw [Except.ok.injEq] at hok
        subst hok
        refine ⟨?_, rfl, rfl, rfl, hu⟩
        constructor
        · exact Or.inl rfl
        · rfl
        · intro _
          exact hu
        · intro _
          rfl
        · intro db' hdb'
          injection hdb' with hdb'
          subst hdb'
          rfl

theorem file_id_frame {st : CovData} (hc : st.connected = true)
    (hd : st.disk.isSome = true)
    (f : String) (add : Bool) {p : CovData × Option Nat}
    (hok : _file_id st f add = Except.ok p) : sameFrame st p.1 := by
  rw [_file_id] at hok
  cases hg : assocGet st.file_map f with
  | some fid =>
    rw [hg] at hok
    rw [Except.ok.injEq] at hok
    subst hok
    exact sameFrame_refl st
  | none =>
    rw [hg] at hok
    cases add with
    | false =>
      simp only [Bool.false_eq_true, reduceIte] at hok
      rw [Except.ok.injEq] at hok
      subst hok
      exact sameFrame_refl st
    | true =>
      obtain ⟨d, hdd⟩ := Option.isSome_iff_exists.mp hd
      simp only [reduceIte, bind, Except.bind, _connect, hc, if_true] at hok
      rw [Except.ok.injEq] at hok
      subst hok
      refine ⟨rfl, rfl, hc.symm, rfl, ?_, ?_⟩
      · simp [getDb, hdd, fileInsertOrReplace]
      · simp [hdd]

theorem add_lines_body_frame {st st' : CovData} (hc : st.connected = true)
    (hd : st.disk.isSome = true) {e : String × List Nat}
    (hok : _add_lines_body st e = Except.ok st') : sameFrame st st' := by
  rw [_add_lines_body] at hok
  cases hf : _file_id st e.1 true with
  | error er =>
    rw [hf] at hok
    simp [bind, Except.bind] at hok
  | ok p =>
    have hfr := file_id_frame hc hd e.1 true hf
    have hps : p.1.disk.isSome = true := by
      rw [hfr.2.2.2.2.2, hd]
    obtain ⟨d, hdd⟩ := Option.isSome_iff_exists.mp hps
    rw [hf] at hok
    simp only [bind, Except.bind] at hok
    rw [Except.ok.injEq] at hok
    subst hok
    refine sameFrame_trans hfr ⟨rfl, rfl, rfl, rfl, ?_, ?_⟩
    · simp [getDb, hdd]
    · rw [hdd]
      rfl

theorem add_arcs_body_frame {st st' : CovData} (hc : st.connected = true)
    (hd : st.disk.isSome = true) {e : String × List (Int × Int)}
    (hok : _add_arcs_body st e = Except.ok st') : sameFrame st st' := by
  rw [_add_arcs_body] at hok
  cases hf : _file_id st e.1 true with
  | error er =>
    rw [hf] at hok
    simp [bind, Except.bind] at hok
  | ok p =>
    have hfr := file_id_frame hc hd e.1 true hf
    have hps : p.1.disk.isSome = true := by
      rw [hfr.2.2.2.2.2, hd]
    obtain ⟨d, hdd⟩ := Option.isSome_iff_exists.mp hps
    rw [hf] at hok
    simp only [bind, Except.bind] at hok
    rw [Except.ok.injEq] at hok
    subst hok
    refine sameFrame_trans hfr ⟨rfl, rfl, rfl, rfl, ?_, ?_⟩
    · simp [getDb, hdd]
    · rw [hdd]
      rfl

theorem file_tracer_eval {st : CovData} (hc : st.connected = true)
    (hu : st.have_used = true) (f : String) :
    ∃ r, file_tracer st f = Except.ok r ∧ r.1 = st := by
  rw [file_tracer]
  rw [show _start_using st = st from start_using_eq_of_used hu]
  simp only [_connect, hc, if_true, bind, Except.bind]
  rw [_file_id]
  cases hg : assocGet st.file_map f with
  | none => exact ⟨(st, none), rfl, rfl⟩
  | some fid =>
    cases ht : assocGet (getDb st).tracer fid with
    | some tr => exact ⟨(st, some tr), by simp [ht], rfl⟩
    | none => exact ⟨(st, some ""), by simp [ht], rfl⟩

theorem add_file_tracers_body_frame {st st' : CovData}
    (hc : st.connected = true) (hd : st.disk.isSome = true)
    (hu : st.have_used = true) {e : String × String}
    (hok : _add_file_tracers_body st e = Except.ok st') : sameFrame st st' := by
  rw [_add_file_tracers_body, _file_id] at hok
  cases hg : assocGet st.file_map e.1 with
  | none =>
    rw [hg] at hok
    simp [bind, Except.bind] at hok
  | some fid =>
    rw [hg] at hok
    obtain ⟨r, hr, hr1⟩ := file_tracer_eval hc hu e.1
    simp only [bind, Except.bind, hr] at hok
    by_cases hex : r.2.getD "" ≠ ""
    · rw [if_pos hex] at hok
      by_cases hne : r.2.getD "" ≠ e.2
      · rw [if_pos hne] at hok
        cases hok
      · rw [if_neg hne] at hok
        rw [Except.ok.injEq] at hok
        subst hok
        rw [hr1]
        exact sameFrame_refl st
    · rw [if_neg hex] at hok
      by_cases hpl : e.2 ≠ ""
      · rw [if_pos hpl] at hok
        rw [Except.ok.injEq] at hok
        subst hok
        rw [hr1]
        refine ⟨rfl, rfl, rfl, rfl, ?_, ?_⟩
        · obtain ⟨d, hdd⟩ := Option.isSome_iff_exists.mp hd
          simp [getDb, hdd]
        · rw [hd]
          rfl
      · rw [if_neg hpl] at hok
        rw [Except.ok.injEq] at hok
        subst hok
        rw [hr1]
        exact sameFrame_refl st

theorem foldlM_frame {β : Type} {f : CovData → β → Except CovErr CovData}
    {base : CovData}
    (hf : ∀ st x st', sameFrame base st → f st x = Except.ok st' →
      sameFrame base st') :
    ∀ (l : List β) (st st' : CovData), sameFrame base st →
      l.foldlM f st = Except.ok st' → sameFrame base st' :=
  foldlM_except_induct hf

theorem add_file_tracers_frame {st st' : CovData} (hc : st.connected = true)
    (hd : st.disk.isSome = true) (hu : st.have_used = true)
    {d : List (String × String)}
    (hok : add_file_tracers st d = Except.ok st') : sameFrame st st' := by
  rw [add_file_tracers] at hok
  by_cases he : d.isEmpty
  · rw [if_pos he] at hok
    rw [Except.ok.injEq] at hok
    subst hok
    exact sameFrame_refl st
  · rw [if_neg he] at hok
    rw [show _start_using st = st from start_using_eq_of_used hu] at hok
    simp only [_connect, hc, if_true, bind, Except.bind] at hok
    refine foldlM_frame ?_ d st st' (sameFrame_refl st) hok
    intro s x s' hfr hs
    refine sameFrame_trans hfr
      (add_file_tracers_body_frame ?_ ?_ ?_ hs)
    · rw [hfr.2.2.1, hc]
    · rw [hfr.2.2.2.2.2, hd]
    · rw [hfr.2.2.2.1, hu]

theorem touch_files_body_frame {st st' : CovData} (hc : st.connected = true)
    (hd : st.disk.isSome = true) (hu : st.have_used = true)
    {pl : String} {fn : String}
    (hok : _touch_files_body pl st fn = Except.ok st') : sameFrame st st' := by
  rw [_touch_files_body] at hok
  cases hf : _file_id st fn true with
  | error er =>
    rw [hf] at hok
    simp [bind, Except.bind] at hok
  | ok p =>
    have hfr := file_id_frame hc hd fn true hf
    rw [hf] at hok
    simp only [bind, Except.bind] at hok
    by_cases hpl : pl ≠ ""
    · rw [if_pos hpl] at hok
      refine sameFrame_trans hfr (add_file_tracers_frame ?_ ?_ ?_ hok)
      · rw [hfr.2.2.1, hc]
      · rw [hfr.2.2.2.2.2, hd]
      · rw [hfr.2.2.2.1, hu]
    · rw [if_neg hpl] at hok
      rw [Except.ok.injEq] at hok
      subst hok
      exact hfr

theorem set_context_id_frame {st st' : CovData} (hc : st.connected = true)
    (hd : st.disk.isSome = true) (hu : st.have_used = true)
    (hok : _set_context_id st = Except.ok st') : sameFrame st st' := by
  obtain ⟨d, hdd⟩ := Option.isSome_iff_exists.mp hd
  rw [_set_context_id, _context_id] at hok
  rw [show _start_using st = st from start_using_eq_of_used hu] at hok
  simp only [_connect, hc, if_true, bind, Except.bind] at hok
  cases hg : ctxIdLookup (getDb st).context (st.current_context.getD "") with
  | some cid =>
    rw [hg] at hok
    rw [Except.ok.injEq] at hok
    subst hok
    exact ⟨rfl, rfl, hc.symm, rfl, rfl, rfl⟩
  | none =>
    rw [hg] at hok
    rw [Except.ok.injEq] at hok
    subst hok
    refine ⟨rfl, rfl, hc.symm, rfl, ?_, ?_⟩
    · simp [getDb, hdd, contextInsert]
    · rw [hd]
      rfl

theorem add_lines_inv {st st' : CovData} {d : List (String × List Nat)}
    (h : Inv st) (hok : add_lines st d = Except.ok st') :
    Inv st' ∧ st'.has_lines = true ∧ st'.has_arcs = false := by
  rw [add_lines] at hok
  cases hch : _choose_lines_or_arcs (_start_using st) true false with
  | error e =>
    simp only [bind, Except.bind, hch] at hok
    exact Except.noConfusion hok
  | ok stc =>
    obtain ⟨hInvC, hlC, haC, hcC, huC⟩ :=
      choose_lines_ok (inv_start_using h) (start_using_have_used st) hch
    have hdC : stc.disk.isSome = true := by
      rw [hInvC.disk_conn, hcC]
    simp only [bind, Except.bind, hch] at hok
    by_cases he : d.isEmpty
    · rw [if_pos he] at hok
      rw [Except.ok.injEq] at hok
      subst hok
      exact ⟨hInvC, hlC, haC⟩
    · rw [if_neg he] at hok
      rw [show _connect stc = Except.ok stc from by
        rw [_connect, if_pos hcC]] at hok
      simp only [bind, Except.bind] at hok
      cases hsc : _set_context_id stc with
      | error e =>
        simp only [hsc] at hok
        exact Except.noConfusion hok
      | ok std =>
        simp only [hsc] at hok
        have hfrS := set_context_id_frame hcC hdC huC hsc
        have hstep : ∀ s x s', sameFrame std s →
            _add_lines_body s x = Except.ok s' → sameFrame std s' := by
          intro s x s' hfs hs
          refine sameFrame_trans hfs (add_lines_body_frame ?_ ?_ hs)
          · rw [hfs.2.2.1, hfrS.2.2.1, hcC]
          · rw [hfs.2.2.2.2.2, hfrS.2.2.2.2.2, hdC]
        have hfr := foldlM_frame hstep d std st' (sameFrame_refl std) hok
        have hInvD : Inv std := inv_of_sameFrame hInvC hfrS
        refine ⟨inv_of_sameFrame hInvD hfr, ?_, ?_⟩
        · rw [hfr.1, hfrS.1, hlC]
        · rw [hfr.2.1, hfrS.2.1, haC]

theorem add_arcs_inv {st st' : CovData} {d : List (String × List (Int × Int))}
    (h : Inv st) (hok : add_arcs st d = Except.ok st') :
    Inv st' ∧ st'.has_arcs = true ∧ st'.has_lines = false := by
  rw [add_arcs] at hok
  cases hch : _choose_lines_or_arcs (_start_using st) false true with
  | error e =>
    simp only [bind, Except.bind, hch] at hok
    exact Except.noConfusion hok
  | ok stc =>
    obtain ⟨hInvC, haC, hlC, hcC, huC⟩ :=
      choose_arcs_ok (inv_start_using h) (start_using_have_used st) hch
    have hdC : stc.disk.isSome = true := by
      rw [hInvC.disk_conn, hcC]
    simp only [bind, Except.bind, hch] at hok
    by_cases he : d.isEmpty
    · rw [if_pos he] at hok
      rw [Except.ok.injEq] at hok
      subst hok
      exact ⟨hInvC, haC, hlC⟩
    · rw [if_neg he] at hok
      rw [show _connect stc = Except.ok stc from by
        rw [_connect, if_pos hcC]] at hok
      simp only [bind, Except.bind] at hok
      cases hsc : _set_context_id stc with
      | error e =>
        simp only [hsc] at hok
        exact Except.noConfusion hok
      | ok std =>
        simp only [hsc] at hok
        have hfrS := set_context_id_frame hcC hdC huC hsc
        have hstep : ∀ s x s', sameFrame std s →
            _add_arcs_body s x = Except.ok s' → sameFrame std s' := by
          intro s x s' hfs hs
          refine sameFrame_trans hfs (add_arcs_body_frame ?_ ?_ hs)
          · rw [hfs.2.2.1, hfrS.2.2.1, hcC]
          · rw [hfs.2.2.2.2.2, hfrS.2.2.2.2.2, hdC]
        have hfr := foldlM_frame hstep d std st' (sameFrame_refl std) hok
        have hInvD : Inv std := inv_of_sameFrame hInvC hfrS
        refine ⟨inv_of_sameFrame hInvD hfr, ?_, ?_⟩
        · rw [hfr.2.1, hfrS.2.1, haC]
        · rw [hfr.1, hfrS.1, hlC]

theorem add_file_tracers_inv {st st' : CovData} {d : List (String × String)}
    (h : Inv st) (hok : add_file_tracers st d = Except.ok st') :
    Inv st' ∧ st'.has_lines = st.has_lines ∧ st'.has_arcs = st.has_arcs := by
  rw [add_file_tracers] at hok
  by_cases he : d.isEmpty
  · rw [if_pos he] at hok
    rw [Except.ok.injEq] at hok
    subst hok
    exact ⟨h, rfl, rfl⟩
  · rw [if_neg he] at hok
    obtain ⟨st2, hceq, hInv2, hc2, hl2, ha2, hu2, hd2⟩ :=
      connect_inv (inv_start_using h) (start_using_have_used st)
    simp only [bind, Except.bind, hceq] at hok
    have hstep : ∀ s x s', sameFrame st2 s →
        _add_file_tracers_body s x = Except.ok s' → sameFrame st2 s' := by
      intro s x s' hfs hs
      refine sameFrame_trans hfs (add_file_tracers_body_frame ?_ ?_ ?_ hs)
      · rw [hfs.2.2.1, hc2]
      · rw [hfs.2.2.2.2.2, hd2]
      · rw [hfs.2.2.2.1, hu2]
    have hfr := foldlM_frame hstep d st2 st' (sameFrame_refl st2) hok
    refine ⟨inv_of_sameFrame hInv2 hfr, ?_, ?_⟩
    · rw [hfr.1, hl2, start_using_has_lines]
    · rw [hfr.2.1, ha2, start_using_has_arcs]

theorem touch_files_inv {st st' : CovData} {fns : List String} {pl : String}
    (h : Inv st) (hok : touch_files st fns pl = Except.ok st') :
    Inv st' ∧ st'.has_lines = st.has_lines ∧ st'.has_arcs = st.has_arcs := by
  rw [touch_files] at hok
  obtain ⟨st2, hceq, hInv2, hc2, hl2, ha2, hu2, hd2⟩ :=
    connect_inv (inv_start_using h) (start_using_have_used st)
  simp only [bind, Except.bind, hceq] at hok
  by_cases hm : (!st2.has_arcs && !st2.has_lines) = true
  · rw [if_pos hm] at hok
    exact Except.noConfusion hok
  · rw [if_neg hm] at hok
    have hstep : ∀ s x s', sameFrame st2 s →
        _touch_files_body pl s x = Except.ok s' → sameFrame st2 s' := by
      intro s x s' hfs hs
      refine sameFrame_trans hfs (touch_files_body_frame ?_ ?_ ?_ hs)
      · rw [hfs.2.2.1, hc2]
      · rw [hfs.2.2.2.2.2, hd2]
      · rw [hfs.2.2.2.1, hu2]
    have hfr := foldlM_frame hstep fns st2 st' (sameFrame_refl st2) hok
    refine ⟨inv_of_sameFrame hInv2 hfr, ?_, ?_⟩
    · rw [hfr.1, hl2, start_using_has_lines]
    · rw [hfr.2.1, ha2, start_using_has_arcs]

theorem set_context_inv {st : CovData} (h : Inv st) (c : String) :
    Inv (set_context st c) :=
  ⟨h.not_both, h.disk_conn, h.conn_used, h.mode_conn, h.meta_ok⟩

theorem runOp_inv {st : CovData} {op : WOp} {st' : CovData} (h : Inv st)
    (hok : runOp st op = Except.ok st') :
    Inv st' ∧ (st.has_lines = true → st'.has_lines = true) ∧
      (st.has_arcs = true → st'.has_arcs = true) := by
  cases op with
  | addLines d =>
    obtain ⟨h1, h2, h3⟩ := add_lines_inv h hok
    refine ⟨h1, fun _ => h2, fun ha => ?_⟩
    rw [show runOp st (WOp.addLines d) = add_lines st d from rfl,
      add_lines_mixed ha d] at hok
    cases hok
  | addArcs d =>
    obtain ⟨h1, h2, h3⟩ := add_arcs_inv h hok
    refine ⟨h1, fun hl => ?_, fun _ => h2⟩
    rw [show runOp st (WOp.addArcs d) = add_arcs st d from rfl,
      add_arcs_mixed hl d] at hok
    cases hok
  | addFileTracers d =>
    obtain ⟨h1, h2, h3⟩ := add_file_tracers_inv h hok
    exact ⟨h1, fun hl => by rw [h2, hl], fun ha => by rw [h3, ha]⟩
  | touchFiles fns pl =>
    obtain ⟨h1, h2, h3⟩ := touch_files_inv h hok
    exact ⟨h1, fun hl => by rw [h2, hl], fun ha => by rw [h3, ha]⟩
  | setContext c =>
    rw [show runOp st (WOp.setContext c) =
      Except.ok (set_context st c) from rfl] at hok
    rw [Except.ok.injEq] at hok
    subst hok
    exact ⟨set_context_inv h c, fun hl => hl, fun ha => ha⟩

theorem runSeq_inv {ops : List WOp} {st' : CovData}
    (h : runSeq initCov ops = Except.ok st') : Inv st' :=
  foldlM_except_induct (fun _ _ _ hI hok => (runOp_inv hI hok).1)
    ops initCov st' inv_initCov h

/-- C3: along every successfully executed sequence of writer operations
from a fresh store, the store never holds both line and arc mode; on an
arc store `add_lines` raises the mixed-mode error and on a line store
`add_arcs` does; and no successful writer operation ever flips the mode
flag once set. -/
theorem C3_mode_exclusive (ops : List WOp) (st : CovData)
    (h : runSeq initCov ops = Except.ok st) :
    (st.has_lines = false ∨ st.has_arcs = false) ∧
    (st.has_arcs = true → ∀ d, errKind (add_lines st d) =
      some ErrKind.mixedMode) ∧
    (st.has_lines = true → ∀ d, errKind (add_arcs st d) =
      some ErrKind.mixedMode) ∧
    (∀ op st', runOp st op = Except.ok st' →
      (st.has_lines = true → st'.has_lines = true) ∧
      (st.has_arcs = true → st'.has_arcs = true)) := by
  have hI := runSeq_inv h
  refine ⟨hI.not_both, ?_, ?_, ?_⟩
  · intro ha d
    rw [add_lines_mixed ha d]
    rfl
  · intro hl d
    rw [add_arcs_mixed hl d]
    rfl
  · intro op st' hok
    exact (runOp_inv hI hok).2

/-- State reached by one concrete `add_arcs` call, for the C3 witness. -/
def arcStore1 : CovData :=
  match runSeq initCov [WOp.addArcs [("a.py", [((1 : Int), (2 : Int))])]] with
  | Except.ok st => st
  | Except.error _ => initCov

/-- Witness for C3: after one concrete `add_arcs`, a concrete `add_lines`
raises the mixed-mode error. -/
theorem C3_mode_exclusive_witness :
    errKind (add_lines arcStore1 [("b.py", [3])]) = some ErrKind.mixedMode :=
  (C3_mode_exclusive [WOp.addArcs [("a.py", [((1 : Int), (2 : Int))])]]
    arcStore1 rfl).2.1 rfl [("b.py", [3])]

/-! ## C2: update with aliases loses data on path collisions

Two different source paths of the other store that alias to the same
local path are NOT unioned: the dict comprehension over the other store's
`line_bits` rows keys on the aliased path, so the later row overwrites the
earlier one and its line bits are dropped.  The evaluation below exhibits
the loss: `Y` holds `{2,3}` for `/ci/a.py` and `{5}` for `/other/a.py`,
both aliased to `/build/a.py`; after `X.update(Y, aliases)` the line 3 is
gone. -/

/-- Alias map sending both of Y's paths to the local path. -/
def aliasFn : String → String :=
  fun p => if p = "/ci/a.py" ∨ p = "/other/a.py" then "/build/a.py" else p

/-- Store X of the C2 scenario: lines `{1,2}` for `/build/a.py`. -/
def xStore : CovData :=
  match add_lines initCov [("/build/a.py", [1, 2])] with
  | Except.ok st => st
  | Except.error _ => initCov

/-- Store Y of the C2 scenario: lines `{2,3}` for `/ci/a.py` and `{5}`
for `/other/a.py`. -/
def yStore : CovData :=
  match add_lines (newHandle "y" none)
      [("/ci/a.py", [2, 3]), ("/other/a.py", [5])] with
  | Except.ok st => st
  | Except.error _ => initCov

/-- Result of `X.update(Y, aliases)` in the C2 scenario. -/
def zStore : CovData :=
  match update xStore yStore aliasFn with
  | Except.ok st => st
  | Except.error _ => initCov

/-- Lines reported for the local path after the merge. -/
def zLines : List Nat :=
  match lines zStore "/build/a.py" with
  | Except.ok (_, some l) => l
  | _ => []

/-- C2 (evaluation at the failing input): both of Y's paths alias to
`/build/a.py`; Y measured line 3 for `/ci/a.py`; yet after
`X.update(Y, aliases)` the store reports `lines("/build/a.py")` without
line 3 — the merge dropped measured data instead of unioning it, so the
result is `{1,2,5}` rather than the claimed `{1,2,3,5}`. -/
theorem C2_update_alias_collision :
    add_lines initCov [("/build/a.py", [1, 2])] = Except.ok xStore ∧
    add_lines (newHandle "y" none)
      [("/ci/a.py", [2, 3]), ("/other/a.py", [5])] = Except.ok yStore ∧
    update xStore yStore aliasFn = Except.ok zStore ∧
    (∃ st', lines zStore "/build/a.py" = Except.ok (st', some zLines)) ∧
    aliasFn "/ci/a.py" = "/build/a.py" ∧
    aliasFn "/other/a.py" = "/build/a.py" ∧
    (∃ stY ly, lines yStore "/ci/a.py" = Except.ok (stY, some ly) ∧ 3 ∈ ly) ∧
    1 ∈ zLines ∧ 2 ∈ zLines ∧ 5 ∈ zLines ∧ 3 ∉ zLines := by
  refine ⟨rfl, rfl, rfl, ⟨_, rfl⟩, by decide, by decide, ⟨_, _, rfl, by decide⟩,
    by decide, by decide, by decide, by decide⟩

end Coverage
